import Mathlib

/-!
# Verification of the pdfbuddy natural-language command parser

Shallow embedding of `backend/app/services/command_parser.py` (the
`CommandParser` class and its module-level tables), together with proofs
settling the specification claims about it.

Python strings are modelled as `List Char`, Python `int` as `Int`,
Python `float` scores/opacities as `ℚ`, Python exceptions as
`Except String`.  Regular-expression matching (`re.match` with
`re.IGNORECASE`) is modelled by a backtracking matcher over a small
regex AST covering exactly the constructs used by the pattern table;
the matcher explores alternatives in Python's documented order
(alternation left to right, greedy quantifiers longest first, lazy
quantifiers shortest first, first overall success wins).
-/

set_option maxRecDepth 1000000

namespace PdfBuddy

/-! ## Python string primitives -/

/-- ASCII whitespace, as matched by Python's `\s` and `str.strip()`
(space, tab, newline, carriage return, vertical tab, form feed). -/
def isPyWs (c : Char) : Bool :=
  c == ' ' || c == '\t' || c == '\n' || c == '\r' || c == '\x0b' || c == '\x0c'

/-- `str.strip()`. -/
def stripWs (s : List Char) : List Char :=
  ((s.dropWhile isPyWs).reverse.dropWhile isPyWs).reverse

/-- Exact (case sensitive) prefix test. -/
def isPrefixL (p s : List Char) : Bool :=
  match p, s with
  | [], _ => true
  | _, [] => false
  | a :: p', b :: s' => a == b && isPrefixL p' s'

/-- Python's `needle in haystack` substring test. -/
def containsSub (n : List Char) : List Char → Bool
  | [] => n.isEmpty
  | c :: t => isPrefixL n (c :: t) || containsSub n t

/-- Case-insensitive literal prefix match (pattern side is the literal as
written in the pattern, input arbitrary); returns the remaining input.
Models a literal under `re.IGNORECASE` for ASCII text. -/
def ciPrefix : List Char → List Char → Option (List Char)
  | [], s => some s
  | _, [] => none
  | p :: ps, c :: cs => if p.toLower == c.toLower then ciPrefix ps cs else none

/-- `str.lower()` (ASCII). -/
def lowerL (s : List Char) : List Char := s.map Char.toLower

/-- `str.split()` with no argument: whitespace-separated tokens, no empties. -/
def pySplitWs : List Char → List (List Char)
  | [] => []
  | c :: t =>
    if isPyWs c then pySplitWs t
    else
      match pySplitWs t with
      | [] => [[c]]
      | w :: ws =>
        match t with
        | [] => [[c]]
        | d :: _ => if isPyWs d then [c] :: w :: ws else (c :: w) :: ws

/-! ## The regex AST and backtracking matcher -/

/-- Single-character classes appearing in the pattern table. -/
inductive CharCls where
  | ws      -- `\s`
  | digit   -- `\d`
  | dot     -- `.` (anything but a newline)
  | oneOf (cs : List Char)  -- e.g. `["']`, `[- ]`
deriving DecidableEq, Repr

def clsMatch : CharCls → Char → Bool
  | .ws, c => isPyWs c
  | .digit, c => c.isDigit
  | .dot, c => c != '\n'
  | .oneOf cs, c => cs.contains c

/-- Regex AST.  Quantifiers (`+`, `*`, also lazy) occur in the pattern table
only over single-character classes, so they are represented that way;
`greedy = false` is the lazy variant. -/
inductive Re where
  | lit (w : List Char)            -- case-insensitive literal
  | cls (k : CharCls)              -- one character of a class
  | seq (a b : Re)
  | alt (a b : Re)
  | opt (a : Re)                   -- greedy `?`
  | grp (i : Nat) (a : Re)         -- capturing group number `i`
  | rep1 (k : CharCls) (greedy : Bool)  -- `k+` / `k+?`
  | rep0 (k : CharCls) (greedy : Bool)  -- `k*` / `k*?`
  | eos                            -- `$` (input is stripped, so end-of-string)
deriving DecidableEq, Repr

/-- Captured groups: slot 0 is the whole match, slots 1.. the groups.
`none` = the group did not participate in the match. -/
abbrev Caps := List (Option (List Char))

/-- Length of the maximal run of class characters. -/
def runLen (k : CharCls) (s : List Char) : Nat := (s.takeWhile (clsMatch k)).length

/-- Consumption counts tried for a quantifier over a class whose maximal run
has length `n`: greedy tries `n, n-1, …, lo`, lazy tries `lo, …, n`. -/
def candN (greedy : Bool) (lo n : Nat) : List Nat :=
  if greedy then (List.range (n + 1 - lo)).map (fun j => n - j)
  else (List.range (n + 1 - lo)).map (fun j => lo + j)

/-- CPS backtracking matcher.  `mat r s k caps` matches `r` against a prefix
of `s`, calling the continuation `k` with the rest and updated captures;
the first success in Python's exploration order wins. -/
def mat : Re → List Char → (List Char → Caps → Option Caps) → Caps → Option Caps
  | .lit w, s, k, caps =>
    match ciPrefix w s with
    | some s' => k s' caps
    | none => none
  | .cls c, s, k, caps =>
    match s with
    | [] => none
    | a :: s' => if clsMatch c a then k s' caps else none
  | .seq a b, s, k, caps => mat a s (fun s' caps' => mat b s' k caps') caps
  | .alt a b, s, k, caps => (mat a s k caps) <|> (mat b s k caps)
  | .opt a, s, k, caps => (mat a s k caps) <|> k s caps
  | .grp i a, s, k, caps =>
    mat a s (fun s' caps' => k s' (caps'.set i (some (s.take (s.length - s'.length))))) caps
  | .rep1 c g, s, k, caps => (candN g 1 (runLen c s)).findSome? (fun i => k (s.drop i) caps)
  | .rep0 c g, s, k, caps => (candN g 0 (runLen c s)).findSome? (fun i => k (s.drop i) caps)
  | .eos, s, k, caps =>
    match s with
    | [] => k [] caps
    | _ => none

/-- `pattern.match(s)` for a compiled pattern: anchored at the start, free at
the end; returns the captures (slot 0 = whole matched prefix). -/
def reMatch (r : Re) (s : List Char) : Option Caps :=
  mat r s (fun s' caps => some (caps.set 0 (some (s.take (s.length - s'.length)))))
    (List.replicate 4 none)

/-! Pattern-building helpers. -/

def rl (w : String) : Re := .lit w.data

def cat (l : List Re) : Re := l.foldr .seq (.lit [])

def alts : List Re → Re
  | [] => .lit []
  | [r] => r
  | r :: t => .alt r (alts t)

/-- `\s+` -/
def ws1 : Re := .rep1 .ws true
/-- `\s*` -/
def ws0 : Re := .rep0 .ws true
/-- `["']` -/
def qcls : Re := .cls (.oneOf ['"', '\''])
/-- `(?:pages?\s+)?` -/
def pagesOpt : Re := .opt (cat [rl "page", .opt (rl "s"), ws1])

/-! ## The pattern table (`COMMAND_PATTERNS`), pattern by pattern -/

/-- `(?:remove|delete|drop|get rid of|take out)\s+(?:pages?\s+)?(.+)` -/
def removeP1 : Re :=
  cat [alts [rl "remove", rl "delete", rl "drop", rl "get rid of", rl "take out"],
    ws1, pagesOpt, .grp 1 (.rep1 .dot true)]

/-- `(?:remove|delete)\s+(?:the\s+)?(?:last|first)\s+(\d+)\s+pages?` -/
def removeP2 : Re :=
  cat [alts [rl "remove", rl "delete"], ws1, .opt (cat [rl "the", ws1]),
    alts [rl "last", rl "first"], ws1, .grp 1 (.rep1 .digit true), ws1,
    rl "page", .opt (rl "s")]

/-- `rotate\s+(?:pages?\s+)?(.+?)?\s*(?:by\s+)?(\d+)?\s*(?:degrees?)?(?:\s+(clockwise|counterclockwise|left|right))?` -/
def rotateP1 : Re :=
  cat [rl "rotate", ws1, pagesOpt, .opt (.grp 1 (.rep1 .dot false)), ws0,
    .opt (cat [rl "by", ws1]), .opt (.grp 2 (.rep1 .digit true)), ws0,
    .opt (cat [rl "degree", .opt (rl "s")]),
    .opt (cat [ws1, .grp 3 (alts [rl "clockwise", rl "counterclockwise", rl "left", rl "right"])])]

/-- `turn\s+(?:pages?\s+)?(.+?)?\s+(clockwise|counterclockwise|right|left|upside down)` -/
def rotateP2 : Re :=
  cat [rl "turn", ws1, pagesOpt, .opt (.grp 1 (.rep1 .dot false)), ws1,
    .grp 2 (alts [rl "clockwise", rl "counterclockwise", rl "right", rl "left", rl "upside down"])]

/-- `flip\s+(?:pages?\s+)?(.+?)?\s*(?:upside down)?` -/
def rotateP3 : Re :=
  cat [rl "flip", ws1, pagesOpt, .opt (.grp 1 (.rep1 .dot false)), ws0,
    .opt (rl "upside down")]

/-- `(?:add\s+)?(?:a\s+)?watermark\s+(?:saying\s+|with\s+(?:text\s+)?|text\s+)?["']?(.+?)["']?(?:\s+(?:at\s+)?(\d+)%?\s*(?:opacity)?)?$` -/
def waterP1 : Re :=
  cat [.opt (cat [rl "add", ws1]), .opt (cat [rl "a", ws1]), rl "watermark", ws1,
    .opt (alts [cat [rl "saying", ws1],
                cat [rl "with", ws1, .opt (cat [rl "text", ws1])],
                cat [rl "text", ws1]]),
    .opt qcls, .grp 1 (.rep1 .dot false), .opt qcls,
    .opt (cat [ws1, .opt (cat [rl "at", ws1]), .grp 2 (.rep1 .digit true),
               .opt (rl "%"), ws0, .opt (rl "opacity")]),
    .eos]

/-- `watermark\s+(?:all\s+)?(?:pages?\s+)?(?:with\s+)?["']?(.+?)["']?$` -/
def waterP2 : Re :=
  cat [rl "watermark", ws1, .opt (cat [rl "all", ws1]), pagesOpt,
    .opt (cat [rl "with", ws1]), .opt qcls, .grp 1 (.rep1 .dot false), .opt qcls, .eos]

/-- `(?:add|put)\s+["'](.+?)["']\s+(?:as\s+)?(?:a\s+)?watermark` -/
def waterP3 : Re :=
  cat [alts [rl "add", rl "put"], ws1, qcls, .grp 1 (.rep1 .dot false), qcls, ws1,
    .opt (cat [rl "as", ws1]), .opt (cat [rl "a", ws1]), rl "watermark"]

/-- `(?:encrypt|protect|password[- ]?protect|lock)\s+(?:with\s+)?(?:password\s+)?["']?(.+?)["']?$` -/
def encP1 : Re :=
  cat [alts [rl "encrypt", rl "protect",
             cat [rl "password", .opt (.cls (.oneOf ['-', ' '])), rl "protect"],
             rl "lock"],
    ws1, .opt (cat [rl "with", ws1]), .opt (cat [rl "password", ws1]),
    .opt qcls, .grp 1 (.rep1 .dot false), .opt qcls, .eos]

/-- `(?:add|set)\s+(?:a\s+)?password\s+["']?(.+?)["']?$` -/
def encP2 : Re :=
  cat [alts [rl "add", rl "set"], ws1, .opt (cat [rl "a", ws1]), rl "password", ws1,
    .opt qcls, .grp 1 (.rep1 .dot false), .opt qcls, .eos]

/-- `(?:secure|lock)\s+(?:the\s+)?(?:document|pdf|file)(?:\s+with\s+["']?(.+?)["']?)?$` -/
def encP3 : Re :=
  cat [alts [rl "secure", rl "lock"], ws1, .opt (cat [rl "the", ws1]),
    alts [rl "document", rl "pdf", rl "file"],
    .opt (cat [ws1, rl "with", ws1, .opt qcls, .grp 1 (.rep1 .dot false), .opt qcls]),
    .eos]

/-- `split\s+(?:into\s+)?(?:individual\s+|separate\s+)?pages?` -/
def splitP1 : Re :=
  cat [rl "split", ws1, .opt (cat [rl "into", ws1]),
    .opt (alts [cat [rl "individual", ws1], cat [rl "separate", ws1]]),
    rl "page", .opt (rl "s")]

/-- `split\s+(?:every|each)\s+(\d+)\s+pages?` -/
def splitP2 : Re :=
  cat [rl "split", ws1, alts [rl "every", rl "each"], ws1,
    .grp 1 (.rep1 .digit true), ws1, rl "page", .opt (rl "s")]

/-- `split\s+(?:at\s+)?pages?\s+(.+)` -/
def splitP3 : Re :=
  cat [rl "split", ws1, .opt (cat [rl "at", ws1]), rl "page", .opt (rl "s"), ws1,
    .grp 1 (.rep1 .dot true)]

/-- `(?:extract|separate)\s+pages?\s+(.+?)(?:\s+(?:as|into)\s+(?:a\s+)?(?:separate|new)\s+(?:file|pdf))?` -/
def splitP4 : Re :=
  cat [alts [rl "extract", rl "separate"], ws1, rl "page", .opt (rl "s"), ws1,
    .grp 1 (.rep1 .dot false),
    .opt (cat [ws1, alts [rl "as", rl "into"], ws1, .opt (cat [rl "a", ws1]),
               alts [rl "separate", rl "new"], ws1, alts [rl "file", rl "pdf"]])]

/-- `(?:add|insert)\s+(?:a\s+)?blank\s+page\s+(?:at\s+)?(?:position\s+)?(\d+)` -/
def blankP1 : Re :=
  cat [alts [rl "add", rl "insert"], ws1, .opt (cat [rl "a", ws1]), rl "blank", ws1,
    rl "page", ws1, .opt (cat [rl "at", ws1]), .opt (cat [rl "position", ws1]),
    .grp 1 (.rep1 .digit true)]

/-- `(?:add|insert)\s+(?:a\s+)?blank\s+page\s+(?:after|before)\s+(?:page\s+)?(\d+)` -/
def blankP2 : Re :=
  cat [alts [rl "add", rl "insert"], ws1, .opt (cat [rl "a", ws1]), rl "blank", ws1,
    rl "page", ws1, alts [rl "after", rl "before"], ws1, .opt (cat [rl "page", ws1]),
    .grp 1 (.rep1 .digit true)]

/-- `(?:add|insert)\s+(?:a\s+)?(?:new\s+)?(?:empty|blank)\s+page(?:\s+(?:at\s+)?(?:the\s+)?(?:end|beginning|start))?` -/
def blankP3 : Re :=
  cat [alts [rl "add", rl "insert"], ws1, .opt (cat [rl "a", ws1]),
    .opt (cat [rl "new", ws1]), alts [rl "empty", rl "blank"], ws1, rl "page",
    .opt (cat [ws1, .opt (cat [rl "at", ws1]), .opt (cat [rl "the", ws1]),
               alts [rl "end", rl "beginning", rl "start"]])]

/-- `(?:extract|get|copy|grab|pull)\s+(?:all\s+)?(?:the\s+)?text(?:\s+from\s+(?:pages?\s+)?(.+))?` -/
def textP1 : Re :=
  cat [alts [rl "extract", rl "get", rl "copy", rl "grab", rl "pull"], ws1,
    .opt (cat [rl "all", ws1]), .opt (cat [rl "the", ws1]), rl "text",
    .opt (cat [ws1, rl "from", ws1, pagesOpt, .grp 1 (.rep1 .dot true)])]

/-- `(?:copy|get)\s+(?:the\s+)?(?:text|content)(?:\s+from\s+(?:pages?\s+)?(.+))?` -/
def textP2 : Re :=
  cat [alts [rl "copy", rl "get"], ws1, .opt (cat [rl "the", ws1]),
    alts [rl "text", rl "content"],
    .opt (cat [ws1, rl "from", ws1, pagesOpt, .grp 1 (.rep1 .dot true)])]

/-- `(?:ocr|recognize\s+text\s+in)\s+(?:this\s+)?(?:document|pdf|file)?(?:\s+(?:pages?\s+)?(.+))?` -/
def ocrP1 : Re :=
  cat [alts [rl "ocr", cat [rl "recognize", ws1, rl "text", ws1, rl "in"]], ws1,
    .opt (cat [rl "this", ws1]), .opt (alts [rl "document", rl "pdf", rl "file"]),
    .opt (cat [ws1, pagesOpt, .grp 1 (.rep1 .dot true)])]

/-- `(?:make|convert)\s+(?:this\s+)?(?:pdf\s+)?searchable` -/
def ocrP2 : Re :=
  cat [alts [rl "make", rl "convert"], ws1, .opt (cat [rl "this", ws1]),
    .opt (cat [rl "pdf", ws1]), rl "searchable"]

/-- `(?:extract|recognize)\s+text\s+(?:from\s+)?(?:scanned?\s+)?(?:images?|pages?)` -/
def ocrP3 : Re :=
  cat [alts [rl "extract", rl "recognize"], ws1, rl "text", ws1,
    .opt (cat [rl "from", ws1]), .opt (cat [rl "scanne", .opt (rl "d"), ws1]),
    alts [cat [rl "image", .opt (rl "s")], cat [rl "page", .opt (rl "s")]]]

/-- `(?:set|change|update)\s+(?:the\s+)?title\s+(?:to\s+)?["']?(.+?)["']?$` -/
def metaP1 : Re :=
  cat [alts [rl "set", rl "change", rl "update"], ws1, .opt (cat [rl "the", ws1]),
    rl "title", ws1, .opt (cat [rl "to", ws1]),
    .opt qcls, .grp 1 (.rep1 .dot false), .opt qcls, .eos]

/-- `(?:set|change|update)\s+(?:the\s+)?author\s+(?:to\s+)?["']?(.+?)["']?$` -/
def metaP2 : Re :=
  cat [alts [rl "set", rl "change", rl "update"], ws1, .opt (cat [rl "the", ws1]),
    rl "author", ws1, .opt (cat [rl "to", ws1]),
    .opt qcls, .grp 1 (.rep1 .dot false), .opt qcls, .eos]

/-- `(?:set|change|update)\s+(?:the\s+)?subject\s+(?:to\s+)?["']?(.+?)["']?$` -/
def metaP3 : Re :=
  cat [alts [rl "set", rl "change", rl "update"], ws1, .opt (cat [rl "the", ws1]),
    rl "subject", ws1, .opt (cat [rl "to", ws1]),
    .opt qcls, .grp 1 (.rep1 .dot false), .opt qcls, .eos]

/-- `(?:reorder|rearrange)\s+pages?\s+(?:to|as)\s+(.+)` -/
def reordP1 : Re :=
  cat [alts [rl "reorder", rl "rearrange"], ws1, rl "page", .opt (rl "s"), ws1,
    alts [rl "to", rl "as"], ws1, .grp 1 (.rep1 .dot true)]

/-- `(?:move|put)\s+page\s+(\d+)\s+(?:to\s+)?(?:position\s+)?(\d+)` -/
def reordP2 : Re :=
  cat [alts [rl "move", rl "put"], ws1, rl "page", ws1, .grp 1 (.rep1 .digit true),
    ws1, .opt (cat [rl "to", ws1]), .opt (cat [rl "position", ws1]),
    .grp 2 (.rep1 .digit true)]

/-- `(?:swap|switch)\s+pages?\s+(\d+)\s+(?:and|with)\s+(\d+)` -/
def reordP3 : Re :=
  cat [alts [rl "swap", rl "switch"], ws1, rl "page", .opt (rl "s"), ws1,
    .grp 1 (.rep1 .digit true), ws1, alts [rl "and", rl "with"], ws1,
    .grp 2 (.rep1 .digit true)]

/-- `(?:extract|get|save|export)\s+(?:all\s+)?(?:the\s+)?images?(?:\s+from\s+(?:pages?\s+)?(.+))?` -/
def imgP1 : Re :=
  cat [alts [rl "extract", rl "get", rl "save", rl "export"], ws1,
    .opt (cat [rl "all", ws1]), .opt (cat [rl "the", ws1]), rl "image", .opt (rl "s"),
    .opt (cat [ws1, rl "from", ws1, pagesOpt, .grp 1 (.rep1 .dot true)])]

/-- `(?:extract|get|export)\s+(?:all\s+)?(?:the\s+)?tables?(?:\s+from\s+(?:pages?\s+)?(.+))?` -/
def tblP1 : Re :=
  cat [alts [rl "extract", rl "get", rl "export"], ws1,
    .opt (cat [rl "all", ws1]), .opt (cat [rl "the", ws1]), rl "table", .opt (rl "s"),
    .opt (cat [ws1, rl "from", ws1, pagesOpt, .grp 1 (.rep1 .dot true)])]

/-! ## Data model -/

/-- The `Intent` enumeration. -/
inductive Intent where
  | removePages | rotatePages | addWatermark | encrypt | split | merge
  | extractText | addBlankPage | reorderPages | ocr | updateMetadata
  | extractImages | extractTables | unknown
deriving DecidableEq, Repr

/-- `DocumentContext`. -/
structure DocumentContext where
  fileId : String
  numPages : Int
  hasText : Bool := true
  hasImages : Bool := true
deriving DecidableEq, Repr

/-- Heterogeneous parameter values (`Dict[str, Any]` entries). -/
inductive PyVal where
  | vInt (n : Int)
  | vStr (s : String)
  | vRat (q : ℚ)
  | vList (l : List Int)
  | vListList (l : List (List Int))
  | vBool (b : Bool)
  | vNone
deriving DecidableEq, Repr

/-- A parameter dictionary, in insertion order (keys are distinct). -/
abbrev Params := List (String × PyVal)

def lookupParam (p : Params) (k : String) : Option PyVal :=
  (p.find? (fun e => e.1 == k)).map (·.2)

/-- `ParsedCommand`. -/
structure ParsedCommand where
  intent : Intent
  parameters : Params
  confidence : ℚ
  originalText : String
  apiEndpoint : String
  apiPayload : Params
  isDestructive : Bool
  humanReadableAction : String
  warnings : List String
  suggestions : List String
deriving DecidableEq, Repr

/-- `INTENT_ENDPOINTS.get(intent, "")`. -/
def intentEndpoint : Intent → String
  | .removePages => "/api/remove-pages"
  | .rotatePages => "/api/rotate"
  | .addWatermark => "/api/watermark"
  | .encrypt => "/api/encrypt"
  | .split => "/api/split"
  | .addBlankPage => "/api/add-blank-page"
  | .reorderPages => "/api/reorder-pages"
  | .extractText => "/api/extract-text"
  | .ocr => "/api/ocr/extract"
  | .updateMetadata => "/api/metadata"
  | .extractImages => "/api/extract-images"
  | .extractTables => "/api/extract-tables"
  | _ => ""

/-- `intent in DESTRUCTIVE_INTENTS`. -/
def isDestructiveIntent : Intent → Bool
  | .removePages | .rotatePages | .addWatermark | .encrypt
  | .split | .addBlankPage | .reorderPages => true
  | _ => false

/-- `INTENT_KEYWORDS` (in insertion order). -/
def intentKeywords : List (Intent × List String) :=
  [(.removePages, ["remove", "delete", "drop", "rid", "take out"]),
   (.rotatePages, ["rotate", "turn", "flip", "orientation"]),
   (.addWatermark, ["watermark", "stamp", "mark"]),
   (.encrypt, ["encrypt", "protect", "password", "lock", "secure"]),
   (.split, ["split", "separate", "divide", "extract"]),
   (.addBlankPage, ["blank", "empty", "new page", "insert page"]),
   (.extractText, ["extract text", "get text", "copy text", "grab text"]),
   (.ocr, ["ocr", "searchable", "recognize", "scan"]),
   (.updateMetadata, ["title", "author", "subject", "metadata"]),
   (.reorderPages, ["reorder", "rearrange", "move page", "swap"]),
   (.extractImages, ["extract image", "get image", "save image"]),
   (.extractTables, ["extract table", "get table"])]

/-! ## Python `int()` and the page-expression micro-parsers -/

def digitVal (c : Char) : Nat := c.toNat - '0'.toNat

/-- Digit-sequence parser used by `pyIntStr` (single underscores allowed
between digits, as in Python ≥ 3.6). -/
def parseDigitsGo : List Char → Nat → Option Nat
  | [], acc => some acc
  | c :: rest, acc =>
    if c.isDigit then parseDigitsGo rest (acc * 10 + digitVal c)
    else if c == '_' then
      match rest with
      | d :: rest' => if d.isDigit then parseDigitsGo rest' (acc * 10 + digitVal d) else none
      | [] => none
    else none

def parseDigits : List Char → Option Nat
  | [] => none
  | c :: rest => if c.isDigit then parseDigitsGo rest (digitVal c) else none

/-- Python `int(s)` on an ASCII decimal string: strips whitespace, allows one
sign; `none` models a raised `ValueError`. -/
def pyIntStr (s : List Char) : Option Int :=
  match stripWs s with
  | [] => none
  | c :: r =>
    if c == '+' then (parseDigits r).map Int.ofNat
    else if c == '-' then (parseDigits r).map (fun n => -(n : Int))
    else (parseDigits (c :: r)).map Int.ofNat

/-- The ten ASCII digit characters (used to quantify claims over the decimal
strings appearing in command text). -/
def digitChars : List Char := ['0', '1', '2', '3', '4', '5', '6', '7', '8', '9']

/-- Numeric value of a decimal digit string. -/
def decValL (s : List Char) : Nat := s.foldl (fun acc c => acc * 10 + digitVal c) 0

/-- Python `range(a, b)` as a list. -/
def intRange (a b : Int) : List Int :=
  (List.range (b - a).toNat).map (fun (i : Nat) => a + (i : Int))

def isSepC (c : Char) : Bool := c == ',' || isPyWs c

mutual

/-- Piece accumulation for `splitSeps` (currently inside a piece). -/
def splitSepsGo (cur : List Char) : List Char → List (List Char)
  | [] => [cur.reverse]
  | c :: rest =>
    if isSepC c then cur.reverse :: splitSepsSkip rest else splitSepsGo (c :: cur) rest

/-- Separator-run skipping for `splitSeps` (currently inside a run). -/
def splitSepsSkip : List Char → List (List Char)
  | [] => [[]]
  | c :: rest => if isSepC c then splitSepsSkip rest else splitSepsGo [c] rest

end

/-- `re.split(r'[,\s]+', s)`: pieces between maximal separator runs,
keeping empty edge pieces. -/
def splitSeps (s : List Char) : List (List Char) := splitSepsGo [] s

/-- Python `part.split("-")`. -/
def splitHyph : List Char → List (List Char)
  | [] => [[]]
  | c :: rest =>
    if c == '-' then [] :: splitHyph rest
    else
      match splitHyph rest with
      | [] => [[c]]
      | p :: ps => (c :: p) :: ps

/-- Ordered insertion without duplicates; folding it models Python's
`sorted(set(xs))` (the strictly increasing enumeration of the elements). -/
def insOrd (x : Int) : List Int → List Int
  | [] => [x]
  | y :: t => if x < y then x :: y :: t else if x == y then y :: t else y :: insOrd x t

def sortedDedup (l : List Int) : List Int := l.foldr insOrd []

/-- One token of the `_parse_page_range` loop body. -/
def pageRangeStep (acc : List Int) (part0 : List Char) : List Int :=
  let part := stripWs part0
  if part.isEmpty then acc
  else if part.contains '-' then
    match splitHyph part with
    | [a, b] =>
      match pyIntStr (stripWs a), pyIntStr (stripWs b) with
      | some s, some e => acc ++ intRange s (e + 1)
      | _, _ => acc
    | _ => acc
  else
    match pyIntStr part with
    | some v => acc ++ [v]
    | none => acc

/-- `_parse_page_range(range_str, max_pages)`; `none` models Python `None`. -/
def parsePageRange (rangeStr : Option (List Char)) (maxPages : Int) : List Int :=
  match rangeStr with
  | none => intRange 1 (maxPages + 1)
  | some s0 =>
    if s0.isEmpty then intRange 1 (maxPages + 1)
    else if lowerL (stripWs s0) = "all".data then intRange 1 (maxPages + 1)
    else
      sortedDedup ((((splitSeps (stripWs s0)).foldl pageRangeStep []).filter
        (fun p => decide (1 ≤ p ∧ p ≤ maxPages))))

/-- `_parse_page_list(list_str)`: order preserved, duplicates kept. -/
def parsePageList (s : List Char) : List Int :=
  (splitSeps s).foldr
    (fun part acc =>
      match pyIntStr (stripWs part) with
      | some v => v :: acc
      | none => acc) []

/-! ## `difflib.SequenceMatcher.ratio()` (no junk: all inputs are short) -/

/-- One row of the `find_longest_match` dynamic program: `newj2len`. -/
def fimRow (b : List Char) (ai : Char) (blo bhi : Nat) (prev : List Nat) : List Nat :=
  (List.range b.length).map (fun j =>
    if blo ≤ j ∧ j < bhi ∧ b.getD j ' ' = ai then
      (if j = 0 then 0 else prev.getD (j - 1) 0) + 1
    else 0)

/-- Scan a row (ascending `j`, CPython's iteration order over `b2j`),
updating the best block only on a strictly larger size. -/
def fimBest (row : List Nat) (i : Nat) (best : Nat × Nat × Nat) : Nat × Nat × Nat :=
  (List.range row.length).foldl
    (fun acc j =>
      let k := row.getD j 0
      if k > acc.2.2 then (i + 1 - k, j + 1 - k, k) else acc) best

/-- `SequenceMatcher.find_longest_match(alo, ahi, blo, bhi)`. -/
def findLongestMatch (a b : List Char) (alo ahi blo bhi : Nat) : Nat × Nat × Nat :=
  ((List.range (ahi - alo)).foldl
    (fun (acc : (Nat × Nat × Nat) × List Nat) di =>
      let i := alo + di
      let row := fimRow b (a.getD i ' ') blo bhi acc.2
      (fimBest row i acc.1, row))
    ((alo, blo, 0), List.replicate b.length 0)).1

/-- Total size of the matching blocks (the `M` of `ratio`), computed by the
recursive subdivision of `get_matching_blocks`; `fuel` only bounds the
recursion depth and is always supplied large enough. -/
def matchBlocksSize (a b : List Char) : Nat → Nat → Nat → Nat → Nat → Nat
  | 0, _, _, _, _ => 0
  | fuel + 1, alo, ahi, blo, bhi =>
    let r := findLongestMatch a b alo ahi blo bhi
    if r.2.2 = 0 then 0
    else r.2.2 + matchBlocksSize a b fuel alo r.1 blo r.2.1 +
         matchBlocksSize a b fuel (r.1 + r.2.2) ahi (r.2.1 + r.2.2) bhi

/-- `SequenceMatcher(None, a, b).ratio()` as an exact rational. -/
def ratioQ (a b : List Char) : ℚ :=
  let m := matchBlocksSize a b (a.length + b.length + 1) 0 a.length 0 b.length
  if a.length + b.length = 0 then 1 else (2 * m : ℚ) / ((a.length : ℚ) + (b.length : ℚ))

/-- `_fuzzy_match_intent`.  Note: a fuzzy candidate replaces the current best
when the raw `ratio` (not the recorded `ratio * 0.7`) beats it. -/
def fuzzyMatchIntent (command : List Char) : Intent × ℚ :=
  intentKeywords.foldl
    (fun best ent =>
      ent.2.foldl
        (fun best kw =>
          if containsSub kw.data (lowerL command) then
            (if (8 : ℚ)/10 > best.2 then (ent.1, 8/10) else best)
          else
            (pySplitWs (lowerL command)).foldl
              (fun best w =>
                if ratioQ kw.data w > 7/10 ∧ ratioQ kw.data w > best.2 then
                  (ent.1, ratioQ kw.data w * (7/10))
                else best)
              best)
        best)
    (Intent.unknown, 0)

/-! ## Parameter extractors

Each `_extract_*` method is modelled as a function from the captures and the
context to an `Except String Params`; `Except.error` models a raised Python
exception (`ValueError` / `TypeError` / `AttributeError`). -/

/-- `match.group(i)` (slot 0 is the whole match). -/
def grpGet (caps : Caps) (i : Nat) : Option (List Char) := caps.getD i none

/-- `match.lastindex`: highest group number (≥ 1) that participated, else
`None`.  No pattern in the table can capture an empty string, so
participation coincides with a recorded capture. -/
def lastIdx (caps : Caps) : Option Nat :=
  ((List.range caps.length).filter (fun i => decide (1 ≤ i) && (grpGet caps i).isSome)).getLast?

/-- Python truthiness of an optional captured string. -/
def truthy : Option (List Char) → Bool
  | some (_ :: _) => true
  | _ => false

/-- `lastindex >= k`; comparing `None` with an `int` raises. -/
def pyGE (o : Option Nat) (k : Nat) : Except String Bool :=
  match o with
  | none => .error "TypeError: '>=' not supported between instances of 'NoneType' and 'int'"
  | some v => .ok (decide (v ≥ k))

/-- `int(match.group(i))`. -/
def pyIntGroup (o : Option (List Char)) : Except String Int :=
  match o with
  | none => .error "TypeError: int() argument must not be None"
  | some s =>
    match pyIntStr s with
    | some v => .ok v
    | none => .error "ValueError: invalid literal for int() with base 10"

/-- `match.group(i).strip()` (raises on a `None` group). -/
def pyStripGroup (o : Option (List Char)) : Except String String :=
  match o with
  | none => .error "AttributeError: 'NoneType' object has no attribute 'strip'"
  | some s => .ok (String.mk (stripWs s))

def listMin? : List Int → Option Int
  | [] => none
  | x :: t => some (t.foldl min x)

def listMax? : List Int → Option Int
  | [] => none
  | x :: t => some (t.foldl max x)

/-- `list.remove(x)`. -/
def pyRemove (l : List Int) (x : Int) : Except String (List Int) :=
  if l.contains x then .ok (l.erase x) else .error "ValueError: list.remove(x): x not in list"

/-- `list.insert(i, x)` (negative indices count from the end, clamped). -/
def pyInsert (l : List Int) (i : Int) (x : Int) : List Int :=
  let idx : Nat := if i < 0 then (max ((l.length : Int) + i) 0).toNat
                   else (min i (l.length : Int)).toNat
  l.take idx ++ x :: l.drop idx

/-- `list.index(x)`. -/
def pyIndexOf (l : List Int) (x : Int) : Except String Nat :=
  match l.findIdx? (fun y => y == x) with
  | some i => .ok i
  | none => .error "ValueError: x not in list"

def listSwap (l : List Int) (i j : Nat) : List Int :=
  (l.set i (l.getD j 0)).set j (l.getD i 0)

/-- Extractor names (`COMMAND_PATTERNS` second components). -/
inductive Extr where
  | pages | relativePages | rotation | rotationDirection | flip
  | watermark | watermarkSimple | watermarkQuoted
  | password | passwordOptional
  | splitIndividual | splitCount | splitAt | splitPages
  | position | positionRelative | positionKeyword
  | textPages | ocrPages | ocrSearchable | ocrSimple
  | metadataTitle | metadataAuthor | metadataSubject
  | newOrder | movePage | swapPages
  | imagePages | tablePages
deriving DecidableEq, Repr

/-- `pages if pages_str else list(range(1, num_pages + 1))` (shared by the
rotation extractors). -/
def pagesOrAll (pagesStr : Option (List Char)) (n : Int) : List Int :=
  if truthy pagesStr then parsePageRange pagesStr n else intRange 1 (n + 1)

/-- The rotation computation of `_extract_rotation` (degrees take priority,
then direction words, default 90). -/
def rotationOf (degreesStr direction : Option (List Char)) : Except String Int :=
  if truthy degreesStr then pyIntGroup degreesStr
  else if truthy direction then
    (if lowerL (direction.getD []) = "counterclockwise".data ∨
        lowerL (direction.getD []) = "left".data then pure 270
     else if lowerL (direction.getD []) = "clockwise".data ∨
         lowerL (direction.getD []) = "right".data then pure 90
     else pure 90)
  else pure 90

/-- The opacity computation of `_extract_watermark`. -/
def opacityOf (ge2 : Bool) (g2 : Option (List Char)) : Except String ℚ :=
  if ge2 && truthy g2 then do
    let v ← pyIntGroup g2
    pure ((v : ℚ) / 100)
  else pure (3/10)

/-- `match.group(1).strip() if match.group(1) else ""`. -/
def pwOf (g1 : Option (List Char)) : Except String String :=
  if truthy g1 then pyStripGroup g1 else pure ""

/-- `match.group(1).strip() if match.lastindex >= 1 and match.group(1) else ""`
(after the `lastindex` comparison has been evaluated to `ge1`). -/
def pwOptOf (ge1 : Bool) (g1 : Option (List Char)) : Except String String :=
  if ge1 && truthy g1 then pyStripGroup g1 else pure ""

/-- `match.group(i).lower()` (raises on a `None` group). -/
def lowerGroup (o : Option (List Char)) : Except String (List Char) :=
  match o with
  | none => .error "AttributeError: 'NoneType' object has no attribute 'lower'"
  | some s => .ok (lowerL s)

/-- `_parse_page_list(match.group(1))` (a `None` group would be fed to
`re.split` and raise). -/
def pageListGroup (o : Option (List Char)) : Except String (List Int) :=
  match o with
  | none => .error "TypeError: expected string or bytes-like object"
  | some s => .ok (parsePageList s)

/-- `[[min(pages), max(pages)]]` (raises on an empty list). -/
def minMaxRanges (pages : List Int) : Except String Params :=
  match listMin? pages, listMax? pages with
  | some lo, some hi => .ok [("mode", .vStr "ranges"), ("ranges", .vListList [[lo, hi]])]
  | _, _ => .error "ValueError: min() arg is an empty sequence"

/-- Dispatch to the bound extractor. -/
def runExtractor (e : Extr) (caps : Caps) (ctx : DocumentContext) : Except String Params :=
  match e with
  | .pages =>
    .ok [("pages", .vList (parsePageRange (grpGet caps 1) ctx.numPages))]
  | .relativePages => do
    let count ← pyIntGroup (grpGet caps 1)
    let cmd := lowerL ((grpGet caps 0).getD [])
    let pages :=
      if containsSub "last".data cmd then
        intRange (ctx.numPages - count + 1) (ctx.numPages + 1)
      else intRange 1 (count + 1)
    pure [("pages", .vList pages)]
  | .rotation => do
    let ge3 ← pyGE (lastIdx caps) 3
    let rotation ← rotationOf (grpGet caps 2) (if ge3 then grpGet caps 3 else none)
    pure [("pages", .vList (pagesOrAll (grpGet caps 1) ctx.numPages)),
          ("rotation", .vInt rotation)]
  | .rotationDirection => do
    let d ← lowerGroup (grpGet caps 2)
    pure [("pages", .vList (pagesOrAll (grpGet caps 1) ctx.numPages)),
          ("rotation", .vInt (
            if d = "clockwise".data then 90 else if d = "right".data then 90
            else if d = "counterclockwise".data then 270 else if d = "left".data then 270
            else if d = "upside down".data then 180 else 90))]
  | .flip =>
    .ok [("pages", .vList (pagesOrAll (grpGet caps 1) ctx.numPages)), ("rotation", .vInt 180)]
  | .watermark => do
    let text ← pyStripGroup (grpGet caps 1)
    let ge2 ← pyGE (lastIdx caps) 2
    let opacity ← opacityOf ge2 (grpGet caps 2)
    pure [("text", .vStr text), ("opacity", .vRat opacity)]
  | .watermarkSimple => do
    let text ← pyStripGroup (grpGet caps 1)
    pure [("text", .vStr text), ("opacity", .vRat (3/10))]
  | .watermarkQuoted => do
    let text ← pyStripGroup (grpGet caps 1)
    pure [("text", .vStr text), ("opacity", .vRat (3/10))]
  | .password => do
    let pw ← pwOf (grpGet caps 1)
    pure [("user_password", .vStr pw)]
  | .passwordOptional => do
    let ge1 ← pyGE (lastIdx caps) 1
    let pw ← pwOptOf ge1 (grpGet caps 1)
    pure [("user_password", .vStr pw), ("needs_password", .vBool (pw = ""))]
  | .splitIndividual => .ok [("mode", .vStr "individual")]
  | .splitCount => do
    let count ← pyIntGroup (grpGet caps 1)
    pure [("mode", .vStr "count"), ("pages_per_file", .vInt count)]
  | .splitAt =>
    .ok [("mode", .vStr "ranges"),
         ("split_at", .vList (parsePageRange (grpGet caps 1) ctx.numPages))]
  | .splitPages => minMaxRanges (parsePageRange (grpGet caps 1) ctx.numPages)
  | .position => do
    let p ← pyIntGroup (grpGet caps 1)
    pure [("position", .vInt p)]
  | .positionRelative => do
    let p ← pyIntGroup (grpGet caps 1)
    let cmd := lowerL ((grpGet caps 0).getD [])
    pure [("position", .vInt (if containsSub "after".data cmd then p + 1 else p))]
  | .positionKeyword => do
    let cmd := lowerL ((grpGet caps 0).getD [])
    let pos : Int :=
      if containsSub "end".data cmd then ctx.numPages + 1
      else if containsSub "beginning".data cmd || containsSub "start".data cmd then 1
      else ctx.numPages + 1
    pure [("position", .vInt pos)]
  | .textPages => do
    let ge1 ← pyGE (lastIdx caps) 1
    let pagesStr := if ge1 && truthy (grpGet caps 1) then grpGet caps 1 else none
    let pv : PyVal :=
      match pagesStr with
      | some s => .vList (parsePageRange (some s) ctx.numPages)
      | none => .vNone
    pure [("pages", pv)]
  | .ocrPages => do
    let ge1 ← pyGE (lastIdx caps) 1
    let pagesStr := if ge1 && truthy (grpGet caps 1) then grpGet caps 1 else none
    let pv : PyVal :=
      match pagesStr with
      | some s => .vList (parsePageRange (some s) ctx.numPages)
      | none => .vNone
    pure [("pages", pv), ("mode", .vStr "extract")]
  | .ocrSearchable => .ok [("mode", .vStr "searchable")]
  | .ocrSimple => .ok [("mode", .vStr "extract")]
  | .metadataTitle => do
    let t ← pyStripGroup (grpGet caps 1)
    pure [("title", .vStr t)]
  | .metadataAuthor => do
    let t ← pyStripGroup (grpGet caps 1)
    pure [("author", .vStr t)]
  | .metadataSubject => do
    let t ← pyStripGroup (grpGet caps 1)
    pure [("subject", .vStr t)]
  | .newOrder => do
    let l ← pageListGroup (grpGet caps 1)
    pure [("new_order", .vList l)]
  | .movePage => do
    let fromPage ← pyIntGroup (grpGet caps 1)
    let toPos ← pyIntGroup (grpGet caps 2)
    let pages := intRange 1 (ctx.numPages + 1)
    let pages ← pyRemove pages fromPage
    pure [("new_order", .vList (pyInsert pages (toPos - 1) fromPage))]
  | .swapPages => do
    let p1 ← pyIntGroup (grpGet caps 1)
    let p2 ← pyIntGroup (grpGet caps 2)
    let pages := intRange 1 (ctx.numPages + 1)
    let i1 ← pyIndexOf pages p1
    let i2 ← pyIndexOf pages p2
    pure [("new_order", .vList (listSwap pages i1 i2))]
  | .imagePages => do
    let ge1 ← pyGE (lastIdx caps) 1
    let pagesStr := if ge1 && truthy (grpGet caps 1) then grpGet caps 1 else none
    let pv : PyVal :=
      match pagesStr with
      | some s => .vList (parsePageRange (some s) ctx.numPages)
      | none => .vNone
    pure [("pages", pv)]
  | .tablePages => do
    let ge1 ← pyGE (lastIdx caps) 1
    let pagesStr := if ge1 && truthy (grpGet caps 1) then grpGet caps 1 else none
    let pv : PyVal :=
      match pagesStr with
      | some s => .vList (parsePageRange (some s) ctx.numPages)
      | none => .vNone
    pure [("pages", pv)]

/-! ## Generic parameter extraction (fuzzy path)

`_extract_generic_params` uses two `re.search` scans.  Both regexes end in
a greedy/lazy construct with nothing after it, so their Python matches are
computed by direct deterministic scanners, tried at each start position
(leftmost match first). -/

/-- Greedy tail of `(\d+(?:\s*[-,]\s*\d+)*)`: consume as many
`\s*[-,]\s*\d+` repetitions as possible, returning the characters they
contribute to group 1. -/
def pagesFragTail : Nat → List Char → List Char
  | 0, _ => []
  | fuel + 1, s =>
    let wsr := s.takeWhile isPyWs
    match s.drop wsr.length with
    | c :: s2 =>
      if c == '-' || c == ',' then
        let ws2 := s2.takeWhile isPyWs
        let s3 := s2.drop ws2.length
        let ds := s3.takeWhile (fun d => d.isDigit)
        if ds.isEmpty then []
        else wsr ++ c :: (ws2 ++ ds ++ pagesFragTail fuel (s3.drop ds.length))
      else []
    | [] => []

/-- `re.search(r'pages?\s+(\d+(?:\s*[-,]\s*\d+)*)', …, re.IGNORECASE)` tried
at one start position; returns group 1 on success. -/
def pagesFragAt (s : List Char) : Option (List Char) :=
  match ciPrefix "page".data s with
  | none => none
  | some s1 =>
    let s2 :=
      match s1 with
      | c :: t => if c.toLower == 's' then t else s1
      | [] => s1
    let wsr := s2.takeWhile isPyWs
    if wsr.isEmpty then none
    else
      let s3 := s2.drop wsr.length
      let ds := s3.takeWhile (fun d => d.isDigit)
      if ds.isEmpty then none
      else some (ds ++ pagesFragTail s3.length (s3.drop ds.length))

/-- Leftmost match of the page-fragment search. -/
def searchPagesFrag : List Char → Option (List Char)
  | [] => none
  | c :: t => pagesFragAt (c :: t) <|> searchPagesFrag t

def isQuoteC (c : Char) : Bool := c == '"' || c == '\''

/-- Scan for the closing quote of `["\'](.+?)["\']` (lazy: the first quote
after at least one content character closes; a newline kills the match). -/
def qScan (acc : List Char) : List Char → Option (List Char)
  | [] => none
  | c :: t =>
    if isQuoteC c then some acc.reverse
    else if c == '\n' then none
    else qScan (c :: acc) t

/-- `re.search(r'["\'](.+?)["\']', …)` tried at one start position. -/
def quotedAt : List Char → Option (List Char)
  | q :: c1 :: rest => if isQuoteC q && c1 != '\n' then qScan [c1] rest else none
  | _ => none

/-- Leftmost match of the quoted-text search; returns group 1. -/
def searchQuoted : List Char → Option (List Char)
  | [] => none
  | c :: t => quotedAt (c :: t) <|> searchQuoted t

/-- `_extract_generic_params(command, intent, context)`. -/
def extractGenericParams (command : List Char) (intent : Intent)
    (ctx : DocumentContext) : Params :=
  let p1 : Params :=
    match searchPagesFrag command with
    | some frag => [("pages", .vList (parsePageRange (some frag) ctx.numPages))]
    | none => []
  let p2 : Params :=
    match searchQuoted command with
    | some txt =>
      if intent = .addWatermark then [("text", .vStr (String.mk txt))]
      else if intent = .encrypt then [("user_password", .vStr (String.mk txt))]
      else []
    | none => []
  p1 ++ p2

/-! ## Result assembly: descriptions, warnings, suggestions -/

def paramPagesD (p : Params) : List Int :=
  match lookupParam p "pages" with
  | some (.vList l) => l
  | _ => []

def paramIntD (p : Params) (k : String) (d : Int) : Int :=
  match lookupParam p k with
  | some (.vInt n) => n
  | _ => d

def paramStrD (p : Params) (k : String) (d : String) : String :=
  match lookupParam p k with
  | some (.vStr s) => s
  | _ => d

def paramRatD (p : Params) (k : String) (d : ℚ) : ℚ :=
  match lookupParam p k with
  | some (.vRat q) => q
  | _ => d

def paramListD (p : Params) (k : String) : List Int :=
  match lookupParam p k with
  | some (.vList l) => l
  | _ => []

/-- Python `int()` truncation (toward zero) of an exact rational. -/
def pyTrunc (q : ℚ) : Int := if q < 0 then -(Rat.floor (-q)) else Rat.floor q

def joinComma (l : List Int) : String := String.intercalate ", " (l.map toString)

/-- `_format_page_list`. -/
def formatPageList (pages : List Int) : String :=
  match pages with
  | [] => "none"
  | p0 :: rest =>
    if pages.length ≤ 5 then joinComma pages
    else
      let plast := (p0 :: rest).getLast (by simp)
      if pages = intRange p0 (plast + 1) then s!"{p0}-{plast}"
      else
        let p1 := rest.headD 0
        s!"{p0}, {p1}, ... {plast}"

/-- `_describe_split`. -/
def describeSplit (params : Params) (ctx : DocumentContext) : String :=
  let mode := paramStrD params "mode" "individual"
  if mode = "individual" then
    let n := ctx.numPages
    s!"Split into {n} individual pages"
  else if mode = "count" then
    let c := paramIntD params "pages_per_file" 1
    s!"Split every {c} pages"
  else if mode = "ranges" then "Split at specified pages"
  else "Split document"

/-- `_describe_metadata`. -/
def describeMetadata (params : Params) : String :=
  let parts :=
    (if (lookupParam params "title").isSome then
      let t := paramStrD params "title" ""
      [s!"title to \"{t}\""]
     else []) ++
    (if (lookupParam params "author").isSome then
      let t := paramStrD params "author" ""
      [s!"author to \"{t}\""]
     else []) ++
    (if (lookupParam params "subject").isSome then
      let t := paramStrD params "subject" ""
      [s!"subject to \"{t}\""]
     else [])
  if parts.isEmpty then "Update metadata"
  else
    let j := String.intercalate ", " parts
    s!"Set {j}"

/-- `_generate_action_description`. -/
def actionDescription (intent : Intent) (params : Params) (ctx : DocumentContext) : String :=
  match intent with
  | .removePages =>
    let pages := paramPagesD params
    let np := pages.length
    let fp := formatPageList pages
    s!"Remove {np} page(s): {fp}"
  | .rotatePages =>
    let np := (paramPagesD params).length
    let r := paramIntD params "rotation" 90
    s!"Rotate {np} page(s) by {r}°"
  | .addWatermark =>
    let t := paramStrD params "text" ""
    let pct := pyTrunc (paramRatD params "opacity" (3/10) * 100)
    s!"Add watermark \"{t}\" with {pct}% opacity"
  | .encrypt => "Encrypt document with password"
  | .split => describeSplit params ctx
  | .addBlankPage =>
    let p := paramIntD params "position" 1
    s!"Add blank page at position {p}"
  | .extractText =>
    match lookupParam params "pages" with
    | some (.vList (h :: t)) =>
      let fp := formatPageList (h :: t)
      s!"Extract text from {fp}"
    | _ => "Extract text from all pages"
  | .ocr =>
    if lookupParam params "mode" = some (.vStr "searchable") then "Make PDF searchable"
    else "Extract text using OCR"
  | .updateMetadata => describeMetadata params
  | .reorderPages =>
    let j := joinComma (paramListD params "new_order")
    s!"Reorder pages to: {j}"
  | .extractImages =>
    match lookupParam params "pages" with
    | some (.vList (h :: t)) =>
      let fp := formatPageList (h :: t)
      s!"Extract images from {fp}"
    | _ => "Extract images from all pages"
  | .extractTables =>
    match lookupParam params "pages" with
    | some (.vList (h :: t)) =>
      let fp := formatPageList (h :: t)
      s!"Extract tables from {fp}"
    | _ => "Extract tables from all pages"
  | _ => "Unknown action"

/-- `_generate_warnings`. -/
def generateWarnings (intent : Intent) (params : Params) (ctx : DocumentContext) : List String :=
  (if intent = .removePages then
    let pages := paramPagesD params
    if (pages.length : Int) ≥ ctx.numPages then
      ["Cannot remove all pages. At least one page must remain."]
    else if (pages.length : Int) > ctx.numPages.fdiv 2 then
      let np := pages.length
      let n := ctx.numPages
      [s!"This will remove more than half of the document ({np} of {n} pages)."]
    else []
   else []) ++
  (if intent = .encrypt then
    let pw := paramStrD params "user_password" ""
    if pw = "" then ["No password provided. Please specify a password."]
    else if pw.length < 4 then
      ["Password is very short. Consider using a longer password."]
    else []
   else []) ++
  (if intent = .split ∧ lookupParam params "mode" = some (.vStr "individual") then
    if ctx.numPages > 50 then
      let n := ctx.numPages
      [s!"This will create {n} separate files."]
    else []
   else [])

/-- `_generate_suggestions`. -/
def generateSuggestions (intent : Intent) : List String :=
  match intent with
  | .rotatePages =>
    ["rotate all pages 90 degrees", "rotate page 1 clockwise",
     "rotate pages 1-5 counterclockwise"]
  | .removePages => ["remove pages 1-5", "delete the last 3 pages", "remove page 1"]
  | .addWatermark => ["add watermark \"CONFIDENTIAL\"", "watermark DRAFT at 50% opacity"]
  | _ => []

/-- `_get_all_suggestions`. -/
def getAllSuggestions : List String :=
  ["remove pages 1-5", "rotate page 1 clockwise", "add watermark \"DRAFT\"",
   "encrypt with password secret", "split into individual pages", "extract text",
   "make searchable"]

/-- `_build_result`. -/
def buildResult (intent : Intent) (params : Params) (command : List Char)
    (ctx : DocumentContext) (confidence : ℚ) : ParsedCommand :=
  { intent := intent
    parameters := params
    confidence := confidence
    originalText := String.mk command
    apiEndpoint := intentEndpoint intent
    apiPayload := ("file_id", .vStr ctx.fileId) :: params
    isDestructive := isDestructiveIntent intent
    humanReadableAction := actionDescription intent params ctx
    warnings := generateWarnings intent params ctx
    suggestions := [] }

/-! ## The parser -/

/-- `COMMAND_PATTERNS`, flattened in iteration order (dict insertion order,
patterns in declaration order). -/
def patternTable : List (Intent × Re × Extr) :=
  [(.removePages, removeP1, .pages),
   (.removePages, removeP2, .relativePages),
   (.rotatePages, rotateP1, .rotation),
   (.rotatePages, rotateP2, .rotationDirection),
   (.rotatePages, rotateP3, .flip),
   (.addWatermark, waterP1, .watermark),
   (.addWatermark, waterP2, .watermarkSimple),
   (.addWatermark, waterP3, .watermarkQuoted),
   (.encrypt, encP1, .password),
   (.encrypt, encP2, .password),
   (.encrypt, encP3, .passwordOptional),
   (.split, splitP1, .splitIndividual),
   (.split, splitP2, .splitCount),
   (.split, splitP3, .splitAt),
   (.split, splitP4, .splitPages),
   (.addBlankPage, blankP1, .position),
   (.addBlankPage, blankP2, .positionRelative),
   (.addBlankPage, blankP3, .positionKeyword),
   (.extractText, textP1, .textPages),
   (.extractText, textP2, .textPages),
   (.ocr, ocrP1, .ocrPages),
   (.ocr, ocrP2, .ocrSearchable),
   (.ocr, ocrP3, .ocrSimple),
   (.updateMetadata, metaP1, .metadataTitle),
   (.updateMetadata, metaP2, .metadataAuthor),
   (.updateMetadata, metaP3, .metadataSubject),
   (.reorderPages, reordP1, .newOrder),
   (.reorderPages, reordP2, .movePage),
   (.reorderPages, reordP3, .swapPages),
   (.extractImages, imgP1, .imagePages),
   (.extractTables, tblP1, .tablePages)]

/-- The pattern-matching phase of `parse`: the first pattern (in table
order) that matches wins; its extractor runs (possibly raising). -/
def tryPatterns (command : List Char) (ctx : DocumentContext) :
    Option (Except String ParsedCommand) :=
  patternTable.findSome? (fun ent =>
    match reMatch ent.2.1 command with
    | some caps =>
      some (do
        let params ← runExtractor ent.2.2 caps ctx
        pure (buildResult ent.1 params command ctx (19/20)))
    | none => none)

/-- `CommandParser.parse(command, context)`.  `Except.error` models an
uncaught Python exception escaping `parse`. -/
def parse (command : String) (ctx : DocumentContext) : Except String ParsedCommand :=
  match tryPatterns (stripWs command.data) ctx with
  | some r => r
  | none =>
    if (fuzzyMatchIntent (stripWs command.data)).1 ≠ Intent.unknown ∧
        (fuzzyMatchIntent (stripWs command.data)).2 > 1/2 then
      .ok { buildResult (fuzzyMatchIntent (stripWs command.data)).1
              (extractGenericParams (stripWs command.data)
                (fuzzyMatchIntent (stripWs command.data)).1 ctx)
              (stripWs command.data) ctx
              (fuzzyMatchIntent (stripWs command.data)).2 with
            suggestions := generateSuggestions (fuzzyMatchIntent (stripWs command.data)).1 }
    else
      .ok { intent := .unknown
            parameters := []
            confidence := 0
            originalText := String.mk (stripWs command.data)
            apiEndpoint := ""
            apiPayload := []
            isDestructive := false
            humanReadableAction := "Unknown command"
            warnings := []
            suggestions := getAllSuggestions }

/-! ## A success relation for the matcher -/

/-- `Consumes r s s'`: the pattern `r` can match some prefix of `s`,
leaving exactly `s'` (captures ignored).  This is the search space of
`mat`: `mat r s k caps` succeeds exactly when some `Consumes` path makes
the continuation succeed on the leftover string. -/
inductive Consumes : Re → List Char → List Char → Prop where
  | lit {w s s'} : ciPrefix w s = some s' → Consumes (.lit w) s s'
  | cls {k a s'} : clsMatch k a = true → Consumes (.cls k) (a :: s') s'
  | seq {a b s t s'} : Consumes a s t → Consumes b t s' → Consumes (.seq a b) s s'
  | altL {a b s s'} : Consumes a s s' → Consumes (.alt a b) s s'
  | altR {a b s s'} : Consumes b s s' → Consumes (.alt a b) s s'
  | optSome {a s s'} : Consumes a s s' → Consumes (.opt a) s s'
  | optNone {a s} : Consumes (.opt a) s s
  | grp {i a s s'} : Consumes a s s' → Consumes (.grp i a) s s'
  | rep1 {k g s} (i : Nat) : 1 ≤ i → i ≤ runLen k s → Consumes (.rep1 k g) s (s.drop i)
  | rep0 {k g s} (i : Nat) : i ≤ runLen k s → Consumes (.rep0 k g) s (s.drop i)
  | eos : Consumes .eos [] []

/-- The invariant claimed for every `pages` parameter: strictly ascending
(hence sorted and duplicate-free) and inside `[1, num_pages]`. -/
def goodPages (n : Int) (l : List Int) : Prop :=
  List.Chain' (· < ·) l ∧ ∀ p ∈ l, 1 ≤ p ∧ p ≤ n

end PdfBuddy

deriving instance DecidableEq for Except

namespace PdfBuddy

/-! ## General lemmas -/

theorem orElse_eq_some_iff (x y : Option α) (v : α) :
    (x <|> y) = some v ↔ x = some v ∨ (x = none ∧ y = some v) := by
  cases x <;> simp [Option.orElse]

theorem isSome_orElse (x y : Option α) : (x <|> y).isSome = (x.isSome || y.isSome) := by
  cases x <;> simp [Option.orElse]

theorem findSome?_eq_some {f : α → Option β} :
    ∀ {l : List α} {b : β}, l.findSome? f = some b → ∃ a ∈ l, f a = some b := by
  intro l
  induction l with
  | nil => intro b h; simp [List.findSome?] at h
  | cons x t ih =>
    intro b h
    rw [List.findSome?] at h
    cases hx : f x with
    | some v => rw [hx] at h; exact ⟨x, by simp, by simp [hx, ← h]⟩
    | none =>
      rw [hx] at h
      obtain ⟨a, ha, hfa⟩ := ih h
      exact ⟨a, by simp [ha], hfa⟩

theorem findSome?_isSome {f : α → Option β} :
    ∀ {l : List α}, (l.findSome? f).isSome ↔ ∃ a ∈ l, (f a).isSome := by
  intro l
  induction l with
  | nil => simp [List.findSome?]
  | cons x t ih =>
    rw [List.findSome?]
    cases hx : f x with
    | some v => simp [hx]
    | none => simp [hx, ih]

theorem foldl_inv {P : β → Prop} {step : β → α → β} :
    ∀ {l : List α} {init : β}, P init → (∀ acc a, a ∈ l → P acc → P (step acc a)) →
      P (l.foldl step init) := by
  intro l
  induction l with
  | nil => intro _ h0 _; exact h0
  | cons x t ih =>
    intro init h0 h
    exact ih (h init x (by simp) h0) (fun acc a ha => h acc a (by simp [ha]))

theorem bind_eq_error {x : Except ε α} {f : α → Except ε β} {e : ε}
    (h : x >>= f = .error e) : x = .error e ∨ ∃ a, x = .ok a ∧ f a = .error e := by
  cases x with
  | error e' => left; simpa [Except.bind, Bind.bind] using h
  | ok a => right; exact ⟨a, rfl, by simpa [Except.bind, Bind.bind] using h⟩

theorem bind_eq_ok {x : Except ε α} {f : α → Except ε β} {b : β}
    (h : x >>= f = .ok b) : ∃ a, x = .ok a ∧ f a = .ok b := by
  cases x with
  | error e' => simp [Except.bind, Bind.bind] at h
  | ok a => exact ⟨a, rfl, by simpa [Except.bind, Bind.bind] using h⟩

/-! ## Invariants of the page-expression parser -/

theorem mem_insOrd {y x : Int} : ∀ {l : List Int}, y ∈ insOrd x l ↔ y = x ∨ y ∈ l := by
  intro l
  induction l with
  | nil => simp [insOrd]
  | cons z t ih =>
    rw [insOrd]
    split
    · simp
    · split
      · next hlt heq =>
        have hxz : x = z := by simpa using heq
        subst hxz
        simp only [List.mem_cons]
        tauto
      · simp only [List.mem_cons, ih]; tauto

theorem insOrd_head {x : Int} (l : List Int) :
    (insOrd x l).head? = some x ∨ (insOrd x l).head? = l.head? := by
  cases l with
  | nil => left; rfl
  | cons y t =>
    rw [insOrd]
    split
    · left; rfl
    · split
      · right; rfl
      · right; rfl

theorem chain_insOrd {x : Int} :
    ∀ {l : List Int}, List.Chain' (· < ·) l → List.Chain' (· < ·) (insOrd x l) := by
  intro l
  induction l with
  | nil => intro _; simp [insOrd]
  | cons y t ih =>
    intro h
    rw [insOrd]
    split
    · next hlt => exact h.cons hlt
    · split
      · exact h
      · next hlt heq =>
        have hylt : y < x := by
          have : ¬ x = y := by simpa using heq
          omega
        refine List.Chain'.cons' (ih h.tail) ?_
        intro z hz
        rcases insOrd_head (x := x) t with hh | hh
        · rw [hh] at hz
          simp at hz
          omega
        · rw [hh] at hz
          exact (List.chain'_cons'.mp h).1 z hz

theorem mem_sortedDedup {y : Int} : ∀ {l : List Int}, y ∈ sortedDedup l ↔ y ∈ l := by
  intro l
  induction l with
  | nil => simp [sortedDedup]
  | cons x t ih =>
    show y ∈ insOrd x (sortedDedup t) ↔ _
    rw [mem_insOrd, ih]; simp

theorem chain_sortedDedup : ∀ (l : List Int), List.Chain' (· < ·) (sortedDedup l) := by
  intro l
  induction l with
  | nil => simp [sortedDedup]
  | cons x t ih => exact chain_insOrd ih

theorem insOrd_eq_cons {x : Int} {l : List Int} (h : List.Chain' (· < ·) (x :: l)) :
    insOrd x l = x :: l := by
  cases l with
  | nil => rfl
  | cons y t =>
    have : x < y := (List.chain'_cons.mp h).1
    simp [insOrd, this]

theorem sortedDedup_eq_self : ∀ {l : List Int}, List.Chain' (· < ·) l → sortedDedup l = l := by
  intro l
  induction l with
  | nil => intro _; rfl
  | cons x t ih =>
    intro h
    show insOrd x (sortedDedup t) = x :: t
    rw [ih h.tail]
    exact insOrd_eq_cons h

theorem mem_intRange {p a b : Int} : p ∈ intRange a b ↔ a ≤ p ∧ p < b := by
  simp only [intRange, List.mem_map, List.mem_range]
  constructor
  · rintro ⟨i, hi, rfl⟩
    omega
  · intro h
    exact ⟨(p - a).toNat, by omega, by omega⟩

theorem chain_intRange {a b : Int} : List.Chain' (· < ·) (intRange a b) := by
  unfold intRange
  rw [List.chain'_map]
  cases h : (b - a).toNat with
  | zero => simp
  | succ k =>
    rw [List.chain'_range_succ]
    intro m _
    have : (m : ℤ) < (m + 1 : ℕ) := by exact_mod_cast Nat.lt_succ_self m
    omega

theorem parsePageRange_chain (o : Option (List Char)) (n : Int) :
    List.Chain' (· < ·) (parsePageRange o n) := by
  unfold parsePageRange
  split
  · exact chain_intRange
  · split
    · exact chain_intRange
    · split
      · exact chain_intRange
      · exact chain_sortedDedup _

theorem parsePageRange_mem {p : Int} {o : Option (List Char)} {n : Int}
    (h : p ∈ parsePageRange o n) : 1 ≤ p ∧ p ≤ n := by
  have full : ∀ q : Int, q ∈ intRange 1 (n + 1) → 1 ≤ q ∧ q ≤ n := by
    intro q hm; have := mem_intRange.mp hm; omega
  unfold parsePageRange at h
  revert h
  split
  · exact full p
  · split
    · exact full p
    · split
      · exact full p
      · intro h
        rw [mem_sortedDedup, List.mem_filter] at h
        have := of_decide_eq_true h.2
        omega

/-! ## Inversion of `parse` -/

theorem patternTable_intents : ∀ ent ∈ patternTable, ent.1 ≠ Intent.unknown := by decide

theorem tryPatterns_some {s : List Char} {ctx : DocumentContext}
    {r : Except String ParsedCommand} (h : tryPatterns s ctx = some r) :
    ∃ ent ∈ patternTable, ∃ caps, reMatch ent.2.1 s = some caps ∧
      r = (runExtractor ent.2.2 caps ctx >>= fun params =>
            pure (buildResult ent.1 params s ctx (19/20))) := by
  obtain ⟨ent, hent, hf⟩ := findSome?_eq_some h
  revert hf
  cases hmatch : reMatch ent.2.1 s with
  | none => intro hf; simp at hf
  | some caps =>
    intro hf
    simp only [Option.some.injEq] at hf
    exact ⟨ent, hent, caps, hmatch, hf.symm⟩

theorem tryPatterns_ok {s : List Char} {ctx : DocumentContext} {pc : ParsedCommand}
    (h : tryPatterns s ctx = some (Except.ok pc)) :
    ∃ ent ∈ patternTable, ∃ params, pc = buildResult ent.1 params s ctx (19/20) := by
  obtain ⟨ent, hent, caps, _, hr⟩ := tryPatterns_some h
  obtain ⟨params, _, hp⟩ := bind_eq_ok hr.symm
  refine ⟨ent, hent, params, ?_⟩
  have := hp
  simp only [pure, Except.pure, Except.ok.injEq] at this
  exact this.symm

theorem tryPatterns_error {s : List Char} {ctx : DocumentContext} {e : String}
    (h : tryPatterns s ctx = some (Except.error e)) :
    ∃ ent ∈ patternTable, ∃ caps, runExtractor ent.2.2 caps ctx = .error e := by
  obtain ⟨ent, hent, caps, _, hr⟩ := tryPatterns_some h
  rcases bind_eq_error hr.symm with he | ⟨a, _, hpe⟩
  · exact ⟨ent, hent, caps, he⟩
  · simp [pure, Except.pure] at hpe

theorem parse_ok_cases {cmd : String} {ctx : DocumentContext} {pc : ParsedCommand}
    (h : parse cmd ctx = .ok pc) :
    (∃ ent ∈ patternTable, ∃ params,
        pc = buildResult ent.1 params (stripWs cmd.data) ctx (19/20)) ∨
    (∃ it cf, fuzzyMatchIntent (stripWs cmd.data) = (it, cf) ∧
        it ≠ Intent.unknown ∧ cf > 1/2 ∧
        pc = { buildResult it (extractGenericParams (stripWs cmd.data) it ctx)
                 (stripWs cmd.data) ctx cf with suggestions := generateSuggestions it }) ∨
    (pc.intent = .unknown ∧ pc.confidence = 0 ∧ pc.suggestions = getAllSuggestions ∧
      pc.warnings = [] ∧ pc.parameters = []) := by
  unfold parse at h
  split at h
  · next r heq =>
    subst h
    exact Or.inl (tryPatterns_ok heq)
  · next heq =>
    split at h
    · next hguard =>
      simp only [Except.ok.injEq] at h
      exact Or.inr (Or.inl ⟨_, _, rfl, hguard.1, hguard.2, h.symm⟩)
    · simp only [Except.ok.injEq] at h
      subst h
      exact Or.inr (Or.inr ⟨rfl, rfl, rfl, rfl, rfl⟩)

theorem parse_error_cases {cmd : String} {ctx : DocumentContext} {e : String}
    (h : parse cmd ctx = .error e) :
    ∃ ent ∈ patternTable, ∃ caps, runExtractor ent.2.2 caps ctx = .error e := by
  unfold parse at h
  split at h
  · next r heq =>
    subst h
    exact tryPatterns_error heq
  · split at h <;> simp at h

/-! ## Per-component error lemmas -/

/-- Every error message an extractor can raise. -/
def extractorErrors : List String :=
  ["TypeError: '>=' not supported between instances of 'NoneType' and 'int'",
   "TypeError: int() argument must not be None",
   "ValueError: invalid literal for int() with base 10",
   "AttributeError: 'NoneType' object has no attribute 'strip'",
   "AttributeError: 'NoneType' object has no attribute 'lower'",
   "ValueError: min() arg is an empty sequence",
   "ValueError: list.remove(x): x not in list",
   "ValueError: x not in list",
   "TypeError: expected string or bytes-like object"]

theorem pyGE_error {o : Option Nat} {k : Nat} {e : String} (h : pyGE o k = .error e) :
    e ∈ extractorErrors := by
  cases o with
  | none =>
    simp only [pyGE, Except.error.injEq] at h
    simp [← h, extractorErrors]
  | some v => simp [pyGE] at h

theorem pyIntGroup_error {o : Option (List Char)} {e : String}
    (h : pyIntGroup o = .error e) : e ∈ extractorErrors := by
  cases o with
  | none =>
    simp only [pyIntGroup, Except.error.injEq] at h
    simp [← h, extractorErrors]
  | some s =>
    simp only [pyIntGroup] at h
    cases hps : pyIntStr s with
    | none =>
      rw [hps] at h
      simp only [Except.error.injEq] at h
      simp [← h, extractorErrors]
    | some v => rw [hps] at h; simp at h

theorem pyStripGroup_error {o : Option (List Char)} {e : String}
    (h : pyStripGroup o = .error e) : e ∈ extractorErrors := by
  cases o with
  | none =>
    simp only [pyStripGroup, Except.error.injEq] at h
    simp [← h, extractorErrors]
  | some s => simp [pyStripGroup] at h

theorem pyRemove_error {l : List Int} {x : Int} {e : String}
    (h : pyRemove l x = .error e) : e ∈ extractorErrors := by
  revert h
  unfold pyRemove
  split
  · intro h; simp at h
  · intro h; simp only [Except.error.injEq] at h; simp [← h, extractorErrors]

theorem pyIndexOf_error {l : List Int} {x : Int} {e : String}
    (h : pyIndexOf l x = .error e) : e ∈ extractorErrors := by
  revert h
  unfold pyIndexOf
  split
  · intro h; simp at h
  · intro h; simp only [Except.error.injEq] at h; simp [← h, extractorErrors]

theorem rotationOf_error {d g : Option (List Char)} {e : String}
    (h : rotationOf d g = .error e) : e ∈ extractorErrors := by
  revert h
  unfold rotationOf
  split
  · intro h; exact pyIntGroup_error h
  · split
    · split
      · intro h; simp [pure, Except.pure] at h
      · split
        · intro h; simp [pure, Except.pure] at h
        · intro h; simp [pure, Except.pure] at h
    · intro h; simp [pure, Except.pure] at h

theorem opacityOf_error {b : Bool} {g : Option (List Char)} {e : String}
    (h : opacityOf b g = .error e) : e ∈ extractorErrors := by
  revert h
  unfold opacityOf
  split
  · intro h
    rcases bind_eq_error h with h1 | ⟨v, _, h2⟩
    · exact pyIntGroup_error h1
    · simp [pure, Except.pure] at h2
  · intro h; simp [pure, Except.pure] at h

theorem pwOf_error {g : Option (List Char)} {e : String}
    (h : pwOf g = .error e) : e ∈ extractorErrors := by
  revert h
  unfold pwOf
  split
  · intro h; exact pyStripGroup_error h
  · intro h; simp [pure, Except.pure] at h

theorem pwOptOf_error {b : Bool} {g : Option (List Char)} {e : String}
    (h : pwOptOf b g = .error e) : e ∈ extractorErrors := by
  revert h
  unfold pwOptOf
  split
  · intro h; exact pyStripGroup_error h
  · intro h; simp [pure, Except.pure] at h

theorem lowerGroup_error {g : Option (List Char)} {e : String}
    (h : lowerGroup g = .error e) : e ∈ extractorErrors := by
  cases g with
  | none =>
    simp only [lowerGroup, Except.error.injEq] at h
    simp [← h, extractorErrors]
  | some s => simp [lowerGroup] at h

theorem pageListGroup_error {g : Option (List Char)} {e : String}
    (h : pageListGroup g = .error e) : e ∈ extractorErrors := by
  cases g with
  | none =>
    simp only [pageListGroup, Except.error.injEq] at h
    simp [← h, extractorErrors]
  | some s => simp [pageListGroup] at h

theorem minMaxRanges_error {l : List Int} {e : String}
    (h : minMaxRanges l = .error e) : e ∈ extractorErrors := by
  revert h
  unfold minMaxRanges
  split
  · intro h; simp at h
  · intro h; simp only [Except.error.injEq] at h; simp [← h, extractorErrors]

/-- Any error escaping an extractor is one of `extractorErrors`. -/
theorem runExtractor_error_mem {ex : Extr} {caps : Caps} {ctx : DocumentContext} {e : String}
    (h : runExtractor ex caps ctx = .error e) : e ∈ extractorErrors := by
  cases ex with
  | pages => simp [runExtractor] at h
  | relativePages =>
    rcases bind_eq_error h with h1 | ⟨a, _, h2⟩
    · exact pyIntGroup_error h1
    · simp [pure, Except.pure] at h2
  | rotation =>
    rcases bind_eq_error h with h1 | ⟨ge3, _, h2⟩
    · exact pyGE_error h1
    · rcases bind_eq_error h2 with h3 | ⟨r, _, h4⟩
      · exact rotationOf_error h3
      · simp [pure, Except.pure] at h4
  | rotationDirection =>
    rcases bind_eq_error h with h1 | ⟨d, _, h2⟩
    · exact lowerGroup_error h1
    · simp [pure, Except.pure] at h2
  | flip => simp [runExtractor] at h
  | watermark =>
    rcases bind_eq_error h with h1 | ⟨t, _, h2⟩
    · exact pyStripGroup_error h1
    · rcases bind_eq_error h2 with h3 | ⟨ge2, _, h4⟩
      · exact pyGE_error h3
      · rcases bind_eq_error h4 with h5 | ⟨op, _, h6⟩
        · exact opacityOf_error h5
        · simp [pure, Except.pure] at h6
  | watermarkSimple =>
    rcases bind_eq_error h with h1 | ⟨t, _, h2⟩
    · exact pyStripGroup_error h1
    · simp [pure, Except.pure] at h2
  | watermarkQuoted =>
    rcases bind_eq_error h with h1 | ⟨t, _, h2⟩
    · exact pyStripGroup_error h1
    · simp [pure, Except.pure] at h2
  | password =>
    rcases bind_eq_error h with h1 | ⟨pw, _, h2⟩
    · exact pwOf_error h1
    · simp [pure, Except.pure] at h2
  | passwordOptional =>
    rcases bind_eq_error h with h1 | ⟨ge1, _, h2⟩
    · exact pyGE_error h1
    · rcases bind_eq_error h2 with h3 | ⟨pw, _, h4⟩
      · exact pwOptOf_error h3
      · simp [pure, Except.pure] at h4
  | splitIndividual => simp [runExtractor] at h
  | splitCount =>
    rcases bind_eq_error h with h1 | ⟨c, _, h2⟩
    · exact pyIntGroup_error h1
    · simp [pure, Except.pure] at h2
  | splitAt => simp [runExtractor] at h
  | splitPages => exact minMaxRanges_error h
  | position =>
    rcases bind_eq_error h with h1 | ⟨p, _, h2⟩
    · exact pyIntGroup_error h1
    · simp [pure, Except.pure] at h2
  | positionRelative =>
    rcases bind_eq_error h with h1 | ⟨p, _, h2⟩
    · exact pyIntGroup_error h1
    · simp [pure, Except.pure] at h2
  | positionKeyword => simp [runExtractor, pure, Except.pure] at h
  | textPages =>
    rcases bind_eq_error h with h1 | ⟨ge1, _, h2⟩
    · exact pyGE_error h1
    · simp [pure, Except.pure] at h2
  | ocrPages =>
    rcases bind_eq_error h with h1 | ⟨ge1, _, h2⟩
    · exact pyGE_error h1
    · simp [pure, Except.pure] at h2
  | ocrSearchable => simp [runExtractor] at h
  | ocrSimple => simp [runExtractor] at h
  | metadataTitle =>
    rcases bind_eq_error h with h1 | ⟨t, _, h2⟩
    · exact pyStripGroup_error h1
    · simp [pure, Except.pure] at h2
  | metadataAuthor =>
    rcases bind_eq_error h with h1 | ⟨t, _, h2⟩
    · exact pyStripGroup_error h1
    · simp [pure, Except.pure] at h2
  | metadataSubject =>
    rcases bind_eq_error h with h1 | ⟨t, _, h2⟩
    · exact pyStripGroup_error h1
    · simp [pure, Except.pure] at h2
  | newOrder =>
    rcases bind_eq_error h with h1 | ⟨l, _, h2⟩
    · exact pageListGroup_error h1
    · simp [pure, Except.pure] at h2
  | movePage =>
    rcases bind_eq_error h with h1 | ⟨f, _, h2⟩
    · exact pyIntGroup_error h1
    · rcases bind_eq_error h2 with h3 | ⟨t, _, h4⟩
      · exact pyIntGroup_error h3
      · rcases bind_eq_error h4 with h5 | ⟨pg, _, h6⟩
        · exact pyRemove_error h5
        · simp [pure, Except.pure] at h6
  | swapPages =>
    rcases bind_eq_error h with h1 | ⟨p1, _, h2⟩
    · exact pyIntGroup_error h1
    · rcases bind_eq_error h2 with h3 | ⟨p2, _, h4⟩
      · exact pyIntGroup_error h3
      · rcases bind_eq_error h4 with h5 | ⟨i1, _, h6⟩
        · exact pyIndexOf_error h5
        · rcases bind_eq_error h6 with h7 | ⟨i2, _, h8⟩
          · exact pyIndexOf_error h7
          · simp [pure, Except.pure] at h8
  | imagePages =>
    rcases bind_eq_error h with h1 | ⟨ge1, _, h2⟩
    · exact pyGE_error h1
    · simp [pure, Except.pure] at h2
  | tablePages =>
    rcases bind_eq_error h with h1 | ⟨ge1, _, h2⟩
    · exact pyGE_error h1
    · simp [pure, Except.pure] at h2

/-! ## Symbolic evaluation lemmas for digit-string commands -/

theorem ciPrefix_self (w : List Char) : ∀ s, ciPrefix w (w ++ s) = some s := by
  induction w with
  | nil => intro s; simp [ciPrefix]
  | cons c t ih => intro s; simp [ciPrefix, ih]

theorem takeWhile_nil_of {p : Char → Bool} {s : List Char}
    (h : ∀ c ∈ s, p c = false) : s.takeWhile p = [] := by
  cases s with
  | nil => rfl
  | cons c t => simp [List.takeWhile, h c (by simp)]

theorem takeWhile_eq_self {p : Char → Bool} : ∀ {s : List Char},
    (∀ c ∈ s, p c = true) → s.takeWhile p = s := by
  intro s
  induction s with
  | nil => intro _; rfl
  | cons c t ih =>
    intro h
    simp [List.takeWhile, h c (by simp), ih (fun d hd => h d (by simp [hd]))]

theorem dropWhile_eq_self_of {p : Char → Bool} {s : List Char}
    (h : ∀ c, s.head? = some c → p c = false) : s.dropWhile p = s := by
  cases s with
  | nil => rfl
  | cons c t => simp [List.dropWhile, h c rfl]

theorem stripWs_eq_self_of {s : List Char}
    (hhead : ∀ c, s.head? = some c → isPyWs c = false)
    (hlast : ∀ c, s.getLast? = some c → isPyWs c = false) : stripWs s = s := by
  unfold stripWs
  rw [dropWhile_eq_self_of hhead]
  rw [dropWhile_eq_self_of (fun c hc => hlast c (by rwa [← List.head?_reverse]))]
  exact List.reverse_reverse s

theorem stripWs_eq_self_all {s : List Char} (h : ∀ c ∈ s, isPyWs c = false) :
    stripWs s = s :=
  stripWs_eq_self_of
    (fun c hc => h c (by cases s <;> simp_all))
    (fun c hc => by
      obtain ⟨hne, rfl⟩ := List.mem_getLast?_eq_getLast (by simpa using hc)
      exact h _ (List.getLast_mem hne))

theorem candN_succ_head (m : Nat) :
    candN true 1 (m + 1) = (m + 1) :: (List.range m).map (fun j => m - j) := by
  simp only [candN, if_pos rfl, Nat.add_sub_cancel, List.range_succ_eq_map]
  simp [List.map_map, Function.comp]

theorem candN_one : candN true 1 1 = [1] := by decide

theorem candN_mem {g : Bool} {lo n i : Nat} : i ∈ candN g lo n ↔ lo ≤ i ∧ i ≤ n := by
  cases g <;> simp only [candN, Bool.false_eq_true, if_false, if_true, List.mem_map,
    List.mem_range] <;> constructor
  · rintro ⟨j, hj, rfl⟩; omega
  · intro hi; exact ⟨i - lo, by omega, by omega⟩
  · rintro ⟨j, hj, rfl⟩; omega
  · intro hi; exact ⟨n - i, by omega, by omega⟩

/-- The first `REMOVE_PAGES` pattern on a command `"remove pages " ++ rest`
whose tail holds no whitespace and no newline: group 1 captures all of
`rest`. -/
theorem reMatch_removeP1 (rest : List Char) (hne : rest ≠ [])
    (hws : ∀ c ∈ rest, isPyWs c = false)
    (hdot : ∀ c ∈ rest, clsMatch .dot c = true) :
    ∃ g0, reMatch removeP1 ("remove pages ".data ++ rest) =
      some [g0, some rest, none, none] := by
  have h1 : rest.takeWhile (clsMatch .ws) = [] :=
    takeWhile_nil_of (fun c hc => by simp [clsMatch, hws c hc])
  have h2 : rest.takeWhile (clsMatch .dot) = rest := takeWhile_eq_self hdot
  obtain ⟨m, hm⟩ : ∃ m, rest.length = m + 1 := by
    cases rest with
    | nil => exact absurd rfl hne
    | cons a b => exact ⟨b.length, rfl⟩
  simp only [reMatch, removeP1, cat, alts, pagesOpt, rl, ws1, List.foldr, mat]
  simp only [ciPrefix, List.cons_append, List.nil_append]
  norm_num [ciPrefix, runLen, List.takeWhile, clsMatch, isPyWs, h1, h2, hm, candN_one,
    candN_succ_head, List.findSome?]
  rw [show m + 1 + 1 - (1 + (m + 1)) = 0 from by omega, Nat.sub_zero, ← hm,
    List.take_length]
  exact ⟨_, rfl⟩

/-! Digit-character facts. -/

theorem digit_not_ws {c : Char} (h : c ∈ digitChars) : isPyWs c = false := by
  fin_cases h <;> decide

theorem digit_not_sep {c : Char} (h : c ∈ digitChars) : isSepC c = false := by
  fin_cases h <;> decide

theorem digit_isDigit {c : Char} (h : c ∈ digitChars) : c.isDigit = true := by
  fin_cases h <;> decide

theorem digit_dot {c : Char} (h : c ∈ digitChars) : clsMatch .dot c = true := by
  fin_cases h <;> decide

theorem digit_ne_hyph {c : Char} (h : c ∈ digitChars) : c ≠ '-' := by
  fin_cases h <;> decide

theorem digit_beq_plus {c : Char} (h : c ∈ digitChars) : (c == '+') = false := by
  fin_cases h <;> decide

theorem digit_beq_minus {c : Char} (h : c ∈ digitChars) : (c == '-') = false := by
  fin_cases h <;> decide

theorem digit_toLower {c : Char} (h : c ∈ digitChars) : c.toLower = c := by
  fin_cases h <;> decide

theorem digit_ne_a {c : Char} (h : c ∈ digitChars) : c ≠ 'a' := by
  fin_cases h <;> decide

theorem parseDigitsGo_digits : ∀ {s : List Char} (acc : Nat),
    (∀ c ∈ s, c ∈ digitChars) →
    parseDigitsGo s acc = some (s.foldl (fun a c => a * 10 + digitVal c) acc) := by
  intro s
  induction s with
  | nil => intro acc _; rfl
  | cons c t ih =>
    intro acc h
    rw [parseDigitsGo.eq_def]
    simp only [digit_isDigit (h c (by simp)), if_true]
    rw [ih _ (fun d hd => h d (by simp [hd]))]
    rfl

theorem parseDigits_digits {s : List Char} (h : ∀ c ∈ s, c ∈ digitChars)
    (hne : s ≠ []) : parseDigits s = some (decValL s) := by
  cases s with
  | nil => exact absurd rfl hne
  | cons c t =>
    simp only [parseDigits]
    rw [if_pos (digit_isDigit (h c (by simp)))]
    rw [parseDigitsGo_digits _ (fun d hd => h d (by simp [hd]))]
    simp [decValL]

theorem pyIntStr_digits {s : List Char} (h : ∀ c ∈ s, c ∈ digitChars)
    (hne : s ≠ []) : pyIntStr s = some (decValL s : Int) := by
  cases s with
  | nil => exact absurd rfl hne
  | cons c t =>
    have hc := h c (by simp)
    have hstrip : stripWs (c :: t) = c :: t :=
      stripWs_eq_self_all (fun d hd => digit_not_ws (h d hd))
    unfold pyIntStr
    rw [hstrip]
    simp only [digit_beq_plus hc, digit_beq_minus hc, if_false]
    rw [parseDigits_digits h (by simp)]
    rfl

theorem splitSepsGo_no_sep : ∀ {s : List Char}, (∀ c ∈ s, isSepC c = false) →
    ∀ cur, splitSepsGo cur s = [cur.reverse ++ s] := by
  intro s
  induction s with
  | nil => intro _ cur; simp [splitSepsGo]
  | cons c t ih =>
    intro h cur
    rw [splitSepsGo, if_neg (by simp [h c (by simp)])]
    rw [ih (fun d hd => h d (by simp [hd]))]
    simp

theorem splitSeps_no_sep {s : List Char} (h : ∀ c ∈ s, isSepC c = false) :
    splitSeps s = [s] := by
  unfold splitSeps
  rw [splitSepsGo_no_sep h]
  rfl

theorem splitHyph_no_hyph : ∀ {s : List Char}, '-' ∉ s → splitHyph s = [s] := by
  intro s
  induction s with
  | nil => intro _; rfl
  | cons c t ih =>
    intro h
    rw [splitHyph, if_neg (by simp; intro hc; exact h (by simp [hc]))]
    rw [ih (fun hm => h (by simp [hm]))]

theorem splitHyph_pair : ∀ {sa : List Char} {sb : List Char},
    '-' ∉ sa → '-' ∉ sb → splitHyph (sa ++ '-' :: sb) = [sa, sb] := by
  intro sa
  induction sa with
  | nil =>
    intro sb _ hb
    rw [List.nil_append, splitHyph, if_pos (by simp)]
    rw [splitHyph_no_hyph hb]
  | cons c t ih =>
    intro sb ha hb
    rw [List.cons_append, splitHyph, if_neg (by simp; intro hc; exact ha (by simp [hc]))]
    rw [ih (fun hm => ha (by simp [hm])) hb]

theorem pageRangeStep_pair {sa sb : List Char} {a b : Nat}
    (hsa : ∀ c ∈ sa, c ∈ digitChars) (hsb : ∀ c ∈ sb, c ∈ digitChars)
    (hna : sa ≠ []) (hnb : sb ≠ [])
    (hva : decValL sa = a) (hvb : decValL sb = b) :
    pageRangeStep [] (sa ++ '-' :: sb) = intRange a (b + 1) := by
  have hstrip : stripWs (sa ++ '-' :: sb) = sa ++ '-' :: sb := by
    apply stripWs_eq_self_all
    intro c hc
    rcases List.mem_append.mp hc with hc | hc
    · exact digit_not_ws (hsa c hc)
    · rcases List.mem_cons.mp hc with rfl | hc
      · decide
      · exact digit_not_ws (hsb c hc)
  have hcontains : (sa ++ '-' :: sb).contains '-' = true :=
    List.elem_eq_true_of_mem (by simp)
  have hempty : (sa ++ '-' :: sb).isEmpty = false := by
    cases sa with
    | nil => rfl
    | cons c t => rfl
  unfold pageRangeStep
  rw [hstrip]
  rw [if_neg (by simp [hempty]), if_pos hcontains]
  rw [splitHyph_pair (fun hm => absurd rfl (digit_ne_hyph (hsa _ hm)))
        (fun hm => absurd rfl (digit_ne_hyph (hsb _ hm)))]
  have hsta : stripWs sa = sa := stripWs_eq_self_all (fun c hc => digit_not_ws (hsa c hc))
  have hstb : stripWs sb = sb := stripWs_eq_self_all (fun c hc => digit_not_ws (hsb c hc))
  simp only [hsta, hstb, pyIntStr_digits hsa hna, pyIntStr_digits hsb hnb, hva, hvb]
  simp

theorem parsePageRange_pair {sa sb : List Char} {n : Int} {a b : Nat}
    (hsa : ∀ c ∈ sa, c ∈ digitChars) (hsb : ∀ c ∈ sb, c ∈ digitChars)
    (hna : sa ≠ []) (hnb : sb ≠ [])
    (hva : decValL sa = a) (hvb : decValL sb = b)
    (h1 : 1 ≤ a) (hbn : (b : Int) ≤ n) :
    parsePageRange (some (sa ++ '-' :: sb)) n = intRange a (b + 1) := by
  have hrest : ∀ c ∈ sa ++ '-' :: sb, isSepC c = false := by
    intro c hc
    rcases List.mem_append.mp hc with hc | hc
    · exact digit_not_sep (hsa c hc)
    · rcases List.mem_cons.mp hc with rfl | hc
      · decide
      · exact digit_not_sep (hsb c hc)
  have hstrip : stripWs (sa ++ '-' :: sb) = sa ++ '-' :: sb :=
    stripWs_eq_self_all (fun c hc => by
      have := hrest c hc
      unfold isSepC at this
      cases hpw : isPyWs c
      · rfl
      · rw [hpw] at this; simp at this)
  have hempty : (sa ++ '-' :: sb).isEmpty = false := by
    cases sa with
    | nil => rfl
    | cons c t => rfl
  have hnotall : ¬ lowerL (sa ++ '-' :: sb) = "all".data := by
    intro heq
    cases sa with
    | nil =>
      rw [List.nil_append] at heq
      rw [show lowerL ('-' :: sb) = '-' :: lowerL sb from rfl] at heq
      injection heq with h1 h2
      exact absurd h1 (by decide)
    | cons c t =>
      have hc := hsa c (by simp)
      rw [show lowerL ((c :: t) ++ '-' :: sb) = c.toLower :: lowerL (t ++ '-' :: sb)
          from rfl] at heq
      rw [digit_toLower hc] at heq
      exact digit_ne_a hc (by injection heq)
  unfold parsePageRange
  simp only [hempty, Bool.false_eq_true, if_false, hstrip, hnotall, if_neg]
  rw [splitSeps_no_sep hrest]
  rw [show List.foldl pageRangeStep [] [sa ++ '-' :: sb] =
      pageRangeStep [] (sa ++ '-' :: sb) from rfl]
  rw [pageRangeStep_pair hsa hsb hna hnb hva hvb]
  rw [List.filter_eq_self.mpr ?_, sortedDedup_eq_self chain_intRange]
  intro p hp
  have := mem_intRange.mp hp
  rw [decide_eq_true_eq]
  omega

theorem generateWarnings_eq_nil {i : Intent} {params : Params} {ctx : DocumentContext}
    (h1 : i ≠ .removePages) (h2 : i ≠ .encrypt) (h3 : i ≠ .split) :
    generateWarnings i params ctx = [] := by
  unfold generateWarnings
  rw [if_neg h1, if_neg h2, if_neg (fun hc => h3 hc.1)]
  simp

theorem findSome?_cons_some {α β} {f : α → Option β} {a : α} {l : List α} {b : β}
    (h : f a = some b) : List.findSome? f (a :: l) = some b := by
  simp only [List.findSome?]
  rw [h]

theorem intRange_length (a b : Int) : (intRange a b).length = (b - a).toNat := by
  unfold intRange
  rw [List.length_map, List.length_range]

/-- A `"remove pages {a}-{b}"` command takes the first-pattern path
end-to-end: `removeP1` (the first entry of the table) matches with group 1
capturing `"{a}-{b}"`, the pages extractor runs `parsePageRange`, and the
result is built with confidence `0.95`. -/
theorem parse_remove_pages_pair {sa sb : List Char} {ctx : DocumentContext} {a b : Nat}
    (hsa : ∀ c ∈ sa, c ∈ digitChars) (hsb : ∀ c ∈ sb, c ∈ digitChars)
    (hna : sa ≠ []) (hnb : sb ≠ [])
    (hva : decValL sa = a) (hvb : decValL sb = b)
    (h1 : 1 ≤ a) (hbn : (b : Int) ≤ ctx.numPages) :
    parse (String.mk ("remove pages ".data ++ sa ++ '-' :: sb)) ctx =
      .ok (buildResult .removePages [("pages", PyVal.vList (intRange a (b + 1)))]
        ("remove pages ".data ++ (sa ++ '-' :: sb)) ctx (19/20)) := by
  have hchars : ∀ c ∈ sa ++ '-' :: sb, c ∈ digitChars ∨ c = '-' := by
    intro c hc
    rcases List.mem_append.mp hc with hc | hc
    · exact Or.inl (hsa c hc)
    · rcases List.mem_cons.mp hc with rfl | hc
      · exact Or.inr rfl
      · exact Or.inl (hsb c hc)
  have hws : ∀ c ∈ sa ++ '-' :: sb, isPyWs c = false := by
    intro c hc
    rcases hchars c hc with h | rfl
    · exact digit_not_ws h
    · decide
  have hdot : ∀ c ∈ sa ++ '-' :: sb, clsMatch .dot c = true := by
    intro c hc
    rcases hchars c hc with h | rfl
    · exact digit_dot h
    · decide
  have hne : sa ++ '-' :: sb ≠ [] := by
    intro h
    have hm : '-' ∈ sa ++ '-' :: sb := by simp
    rw [h] at hm
    exact absurd hm (by simp)
  obtain ⟨g0, hmatch⟩ := reMatch_removeP1 (sa ++ '-' :: sb) hne hws hdot
  have hstrip : stripWs ("remove pages ".data ++ (sa ++ '-' :: sb)) =
      "remove pages ".data ++ (sa ++ '-' :: sb) := by
    apply stripWs_eq_self_of
    · intro c hc
      rw [show ("remove pages ".data ++ (sa ++ '-' :: sb)).head? = some 'r' from rfl] at hc
      injection hc with h
      subst h
      decide
    · intro c hc
      rw [List.getLast?_append_of_ne_nil _ hne] at hc
      obtain ⟨hne2, rfl⟩ := List.mem_getLast?_eq_getLast (by simpa using hc)
      exact hws _ (List.mem_append.mpr (Or.inr (List.getLast_mem hne2)))
  have htp : tryPatterns ("remove pages ".data ++ (sa ++ '-' :: sb)) ctx =
      some (Except.ok (buildResult .removePages
        [("pages", PyVal.vList (intRange a (b + 1)))]
        ("remove pages ".data ++ (sa ++ '-' :: sb)) ctx (19/20))) := by
    simp only [tryPatterns, patternTable]
    apply findSome?_cons_some
    dsimp only
    rw [hmatch]
    simp only [runExtractor]
    rw [show grpGet [g0, some (sa ++ '-' :: sb), none, none] 1 =
        some (sa ++ '-' :: sb) from rfl]
    rw [parsePageRange_pair hsa hsb hna hnb hva hvb h1 hbn]
    rfl
  unfold parse
  rw [show (String.mk ("remove pages ".data ++ sa ++ '-' :: sb)).data =
      "remove pages ".data ++ (sa ++ '-' :: sb) from rfl]
  rw [hstrip, htp]

/-- When the parsed page list covers at least `num_pages` pages, the
remove-pages warning fires. -/
theorem generateWarnings_remove_all (params : Params) (ctx : DocumentContext)
    (h : ((paramPagesD params).length : Int) ≥ ctx.numPages) :
    generateWarnings .removePages params ctx =
      ["Cannot remove all pages. At least one page must remain."] := by
  unfold generateWarnings
  simp only []
  rw [if_pos trivial]
  rw [if_pos h]
  rw [if_neg (show ¬ Intent.removePages = Intent.encrypt by decide)]
  rw [if_neg (show ¬ (Intent.removePages = Intent.split ∧
      lookupParam params "mode" = some (.vStr "individual"))
      from fun hc => absurd hc.1 (by decide))]
  rfl

/-! ## Soundness and completeness of the backtracking matcher w.r.t.
`Consumes` -/

theorem findSome?_cons_none {α β} {f : α → Option β} {a : α} {l : List α}
    (h : f a = none) : List.findSome? f (a :: l) = List.findSome? f l := by
  simp only [List.findSome?]
  rw [h]

theorem mat_isSome_of_consumes : ∀ {r : Re} {s s' : List Char}, Consumes r s s' →
    ∀ (co : List Char → Caps → Option Caps) (caps : Caps),
      (∀ caps2, (co s' caps2).isSome) → (mat r s co caps).isSome := by
  intro r s s' hc
  induction hc with
  | lit h =>
    intro co caps hk
    simp only [mat, h]
    exact hk caps
  | cls h =>
    intro co caps hk
    simp only [mat, h, if_true]
    exact hk caps
  | seq hca hcb iha ihb =>
    intro co caps hk
    simp only [mat]
    exact iha _ caps (fun caps2 => ihb co caps2 hk)
  | altL hca ih =>
    intro co caps hk
    simp only [mat, isSome_orElse, Bool.or_eq_true]
    exact Or.inl (ih co caps hk)
  | altR hcb ih =>
    intro co caps hk
    simp only [mat, isSome_orElse, Bool.or_eq_true]
    exact Or.inr (ih co caps hk)
  | optSome hca ih =>
    intro co caps hk
    simp only [mat, isSome_orElse, Bool.or_eq_true]
    exact Or.inl (ih co caps hk)
  | optNone =>
    intro co caps hk
    simp only [mat, isSome_orElse, Bool.or_eq_true]
    exact Or.inr (hk caps)
  | grp hca ih =>
    intro co caps hk
    simp only [mat]
    exact ih _ caps (fun caps2 => hk _)
  | rep1 i h1 h2 =>
    intro co caps hk
    simp only [mat]
    exact findSome?_isSome.mpr ⟨i, candN_mem.mpr ⟨h1, h2⟩, hk caps⟩
  | rep0 i h2 =>
    intro co caps hk
    simp only [mat]
    exact findSome?_isSome.mpr ⟨i, candN_mem.mpr ⟨Nat.zero_le i, h2⟩, hk caps⟩
  | eos =>
    intro co caps hk
    simp only [mat]
    exact hk caps

theorem mat_eq_some_inv : ∀ (r : Re) (s : List Char)
    (co : List Char → Caps → Option Caps) (caps res : Caps),
    mat r s co caps = some res →
    ∃ s' caps', Consumes r s s' ∧ co s' caps' = some res := by
  intro r
  induction r with
  | lit w =>
    intro s co caps res h
    simp only [mat] at h
    split at h
    · next s1 hp => exact ⟨s1, caps, Consumes.lit hp, h⟩
    · exact absurd h (by simp)
  | cls k =>
    intro s co caps res h
    simp only [mat] at h
    split at h
    · exact absurd h (by simp)
    · next a s1 =>
      split at h
      · next hcl => exact ⟨s1, caps, Consumes.cls hcl, h⟩
      · exact absurd h (by simp)
  | seq a b iha ihb =>
    intro s co caps res h
    simp only [mat] at h
    obtain ⟨t, caps1, hca, hb⟩ := iha s _ caps res h
    obtain ⟨s', caps2, hcb, hk⟩ := ihb t co caps1 res hb
    exact ⟨s', caps2, Consumes.seq hca hcb, hk⟩
  | alt a b iha ihb =>
    intro s co caps res h
    simp only [mat] at h
    rcases (orElse_eq_some_iff _ _ _).mp h with h1 | ⟨_, h2⟩
    · obtain ⟨s', c', hc, hk⟩ := iha s co caps res h1
      exact ⟨s', c', Consumes.altL hc, hk⟩
    · obtain ⟨s', c', hc, hk⟩ := ihb s co caps res h2
      exact ⟨s', c', Consumes.altR hc, hk⟩
  | opt a iha =>
    intro s co caps res h
    simp only [mat] at h
    rcases (orElse_eq_some_iff _ _ _).mp h with h1 | ⟨_, h2⟩
    · obtain ⟨s', c', hc, hk⟩ := iha s co caps res h1
      exact ⟨s', c', Consumes.optSome hc, hk⟩
    · exact ⟨s, caps, Consumes.optNone, h2⟩
  | grp i a iha =>
    intro s co caps res h
    simp only [mat] at h
    obtain ⟨s', c', hc, hk⟩ := iha s _ caps res h
    exact ⟨s', c'.set i (some (s.take (s.length - s'.length))), Consumes.grp hc, hk⟩
  | rep1 k g =>
    intro s co caps res h
    simp only [mat] at h
    obtain ⟨i, hi, hki⟩ := findSome?_eq_some h
    obtain ⟨h1, h2⟩ := candN_mem.mp hi
    exact ⟨s.drop i, caps, Consumes.rep1 i h1 h2, hki⟩
  | rep0 k g =>
    intro s co caps res h
    simp only [mat] at h
    obtain ⟨i, hi, hki⟩ := findSome?_eq_some h
    obtain ⟨_, h2⟩ := candN_mem.mp hi
    exact ⟨s.drop i, caps, Consumes.rep0 i h2, hki⟩
  | eos =>
    intro s co caps res h
    simp only [mat] at h
    split at h
    · exact ⟨[], caps, Consumes.eos, h⟩
    · exact absurd h (by simp)

theorem reMatch_isSome_of_consumes {r : Re} {s s' : List Char}
    (h : Consumes r s s') : (reMatch r s).isSome := by
  unfold reMatch
  exact mat_isSome_of_consumes h _ _ (fun caps2 => by simp)

theorem reMatch_eq_some_consumes {r : Re} {s : List Char} {caps : Caps}
    (h : reMatch r s = some caps) : ∃ s', Consumes r s s' := by
  unfold reMatch at h
  obtain ⟨s', _, hc, _⟩ := mat_eq_some_inv r s _ _ caps h
  exact ⟨s', hc⟩

theorem ciPrefix_cons_inv {p : Char} {ps s s' : List Char}
    (h : ciPrefix (p :: ps) s = some s') :
    ∃ c cs, s = c :: cs ∧ c.toLower = p.toLower ∧ ciPrefix ps cs = some s' := by
  cases s with
  | nil => simp [ciPrefix] at h
  | cons c cs =>
    rw [ciPrefix] at h
    split at h
    · next hb => exact ⟨c, cs, rfl, (beq_iff_eq.mp hb).symm, h⟩
    · exact absurd h (by simp)

theorem dot_of_toLower {c d : Char} (h : c.toLower = d.toLower)
    (hd : d.toLower ≠ '\n') : clsMatch .dot c = true := by
  simp only [clsMatch, bne_iff_ne, ne_eq]
  intro hc
  subst hc
  rw [show ('\n' : Char).toLower = '\n' from by decide] at h
  exact hd h.symm

theorem runLen_pos {k : CharCls} {c : Char} {cs : List Char}
    (h : clsMatch k c = true) : 1 ≤ runLen k (c :: cs) := by
  unfold runLen
  simp [List.takeWhile, h]

theorem ciPrefix_nil (s : List Char) : ciPrefix [] s = some s := by
  cases s <;> rfl

/-- Shadowing: any string matched by the first/last remove pattern is also
matched by the generic remove pattern that precedes it in the table.  After
the verb and the whitespace run, the remainder begins with `t`, `l` or `f`
(case-insensitively), which is not a newline, so the generic pattern's
`(.+)` can consume one character (taking its optional parts as absent). -/
theorem consumes_removeP1_of_removeP2 {s s' : List Char}
    (h : Consumes removeP2 s s') : ∃ t, Consumes removeP1 s t := by
  simp only [removeP2, cat, alts, List.foldr, rl, ws1] at h
  cases h with
  | seq hV h1 =>
  cases h1 with
  | seq hW h2 =>
  rename_i t2
  cases h2 with
  | seq hOpt h3 =>
  cases h3 with
  | seq hLF h4 =>
  have hhead : ∃ c cs, t2 = c :: cs ∧ clsMatch CharCls.dot c = true := by
    cases hOpt with
    | optSome hthe =>
      cases hthe with
      | seq hlit hrest =>
        cases hlit with
        | lit hp =>
          obtain ⟨c, cs, heq, hcl, _⟩ := ciPrefix_cons_inv hp
          exact ⟨c, cs, heq, dot_of_toLower hcl (by decide)⟩
    | optNone =>
      cases hLF with
      | altL hl =>
        cases hl with
        | lit hp =>
          obtain ⟨c, cs, heq, hcl, _⟩ := ciPrefix_cons_inv hp
          exact ⟨c, cs, heq, dot_of_toLower hcl (by decide)⟩
      | altR hf =>
        cases hf with
        | lit hp =>
          obtain ⟨c, cs, heq, hcl, _⟩ := ciPrefix_cons_inv hp
          exact ⟨c, cs, heq, dot_of_toLower hcl (by decide)⟩
  obtain ⟨c, cs, rfl, hdotc⟩ := hhead
  refine ⟨(c :: cs).drop 1, ?_⟩
  simp only [removeP1, cat, alts, List.foldr, rl, pagesOpt, ws1]
  refine Consumes.seq ?_ (Consumes.seq hW (Consumes.seq Consumes.optNone
    (Consumes.seq (Consumes.grp (Consumes.rep1 1 le_rfl (runLen_pos hdotc)))
      (Consumes.lit (ciPrefix_nil _)))))
  cases hV with
  | altL hr => exact Consumes.altL hr
  | altR hd => exact Consumes.altR (Consumes.altL hd)

/-! ## The pages invariant, extractor by extractor -/

theorem lookupParam_cons_eq {k : String} {v : PyVal} {p : Params} :
    lookupParam ((k, v) :: p) k = some v := by
  simp [lookupParam, List.find?]

theorem lookupParam_cons_ne {k k' : String} {v : PyVal} {p : Params}
    (h : (k' == k) = false) : lookupParam ((k', v) :: p) k = lookupParam p k := by
  simp [lookupParam, List.find?, h]

theorem lookupParam_nil_none {k : String} : lookupParam [] k = none := rfl

theorem goodPages_parsePageRange (o : Option (List Char)) (n : Int) :
    goodPages n (parsePageRange o n) :=
  ⟨parsePageRange_chain o n, fun _ hp => parsePageRange_mem hp⟩

theorem goodPages_all (n : Int) : goodPages n (intRange 1 (n + 1)) :=
  ⟨chain_intRange, fun p hp => by have := mem_intRange.mp hp; omega⟩

theorem goodPages_pagesOrAll (o : Option (List Char)) (n : Int) :
    goodPages n (pagesOrAll o n) := by
  unfold pagesOrAll
  split
  · exact goodPages_parsePageRange o n
  · exact goodPages_all n

/-- Every extractor other than the (shadowed) first/last extractor
produces `pages` lists that are strictly ascending and within
`[1, num_pages]`. -/
theorem runExtractor_pages_inv {ex : Extr} {caps : Caps} {ctx : DocumentContext}
    {params : Params} {l : List Int}
    (hrel : ex ≠ Extr.relativePages)
    (h : runExtractor ex caps ctx = .ok params)
    (hl : lookupParam params "pages" = some (PyVal.vList l)) :
    goodPages ctx.numPages l := by
  cases ex with
  | pages =>
    simp only [runExtractor, Except.ok.injEq] at h
    subst h
    rw [lookupParam_cons_eq] at hl
    simp only [Option.some.injEq, PyVal.vList.injEq] at hl
    subst hl
    exact goodPages_parsePageRange _ _
  | relativePages => exact absurd rfl hrel
  | rotation =>
    simp only [runExtractor] at h
    obtain ⟨ge3, _, h⟩ := bind_eq_ok h
    obtain ⟨rot, _, h⟩ := bind_eq_ok h
    simp only [pure, Except.pure, Except.ok.injEq] at h
    subst h
    rw [lookupParam_cons_eq] at hl
    simp only [Option.some.injEq, PyVal.vList.injEq] at hl
    subst hl
    exact goodPages_pagesOrAll _ _
  | rotationDirection =>
    simp only [runExtractor] at h
    obtain ⟨d, _, h⟩ := bind_eq_ok h
    simp only [pure, Except.pure, Except.ok.injEq] at h
    subst h
    rw [lookupParam_cons_eq] at hl
    simp only [Option.some.injEq, PyVal.vList.injEq] at hl
    subst hl
    exact goodPages_pagesOrAll _ _
  | flip =>
    simp only [runExtractor, Except.ok.injEq] at h
    subst h
    rw [lookupParam_cons_eq] at hl
    simp only [Option.some.injEq, PyVal.vList.injEq] at hl
    subst hl
    exact goodPages_pagesOrAll _ _
  | watermark =>
    simp only [runExtractor] at h
    obtain ⟨text, _, h⟩ := bind_eq_ok h
    obtain ⟨ge2, _, h⟩ := bind_eq_ok h
    obtain ⟨op, _, h⟩ := bind_eq_ok h
    simp only [pure, Except.pure, Except.ok.injEq] at h
    subst h
    simp [lookupParam, List.find?] at hl
  | watermarkSimple =>
    simp only [runExtractor] at h
    obtain ⟨text, _, h⟩ := bind_eq_ok h
    simp only [pure, Except.pure, Except.ok.injEq] at h
    subst h
    simp [lookupParam, List.find?] at hl
  | watermarkQuoted =>
    simp only [runExtractor] at h
    obtain ⟨text, _, h⟩ := bind_eq_ok h
    simp only [pure, Except.pure, Except.ok.injEq] at h
    subst h
    simp [lookupParam, List.find?] at hl
  | password =>
    simp only [runExtractor] at h
    obtain ⟨pw, _, h⟩ := bind_eq_ok h
    simp only [pure, Except.pure, Except.ok.injEq] at h
    subst h
    simp [lookupParam, List.find?] at hl
  | passwordOptional =>
    simp only [runExtractor] at h
    obtain ⟨ge1, _, h⟩ := bind_eq_ok h
    obtain ⟨pw, _, h⟩ := bind_eq_ok h
    simp only [pure, Except.pure, Except.ok.injEq] at h
    subst h
    simp [lookupParam, List.find?] at hl
  | splitIndividual =>
    simp only [runExtractor, Except.ok.injEq] at h
    subst h
    simp [lookupParam, List.find?] at hl
  | splitCount =>
    simp only [runExtractor] at h
    obtain ⟨count, _, h⟩ := bind_eq_ok h
    simp only [pure, Except.pure, Except.ok.injEq] at h
    subst h
    simp [lookupParam, List.find?] at hl
  | splitAt =>
    simp only [runExtractor, Except.ok.injEq] at h
    subst h
    simp [lookupParam, List.find?] at hl
  | splitPages =>
    simp only [runExtractor] at h
    unfold minMaxRanges at h
    split at h
    · simp only [Except.ok.injEq] at h
      subst h
      simp [lookupParam, List.find?] at hl
    · exact Except.noConfusion h
  | position =>
    simp only [runExtractor] at h
    obtain ⟨p, _, h⟩ := bind_eq_ok h
    simp only [pure, Except.pure, Except.ok.injEq] at h
    subst h
    simp [lookupParam, List.find?] at hl
  | positionRelative =>
    simp only [runExtractor] at h
    obtain ⟨p, _, h⟩ := bind_eq_ok h
    simp only [pure, Except.pure, Except.ok.injEq] at h
    subst h
    simp [lookupParam, List.find?] at hl
  | positionKeyword =>
    simp only [runExtractor] at h
    simp only [pure, Except.pure, Except.ok.injEq] at h
    subst h
    simp [lookupParam, List.find?] at hl
  | textPages =>
    simp only [runExtractor] at h
    obtain ⟨ge1, _, h⟩ := bind_eq_ok h
    simp only [pure, Except.pure, Except.ok.injEq] at h
    subst h
    rw [lookupParam_cons_eq] at hl
    cases hps : (if ge1 && truthy (grpGet caps 1) then grpGet caps 1 else none) with
    | none => rw [hps] at hl; simp at hl
    | some sfrag =>
      rw [hps] at hl
      simp only [Option.some.injEq, PyVal.vList.injEq] at hl
      subst hl
      exact goodPages_parsePageRange _ _
  | ocrPages =>
    simp only [runExtractor] at h
    obtain ⟨ge1, _, h⟩ := bind_eq_ok h
    simp only [pure, Except.pure, Except.ok.injEq] at h
    subst h
    rw [lookupParam_cons_eq] at hl
    cases hps : (if ge1 && truthy (grpGet caps 1) then grpGet caps 1 else none) with
    | none => rw [hps] at hl; simp at hl
    | some sfrag =>
      rw [hps] at hl
      simp only [Option.some.injEq, PyVal.vList.injEq] at hl
      subst hl
      exact goodPages_parsePageRange _ _
  | ocrSearchable =>
    simp only [runExtractor, Except.ok.injEq] at h
    subst h
    simp [lookupParam, List.find?] at hl
  | ocrSimple =>
    simp only [runExtractor, Except.ok.injEq] at h
    subst h
    simp [lookupParam, List.find?] at hl
  | metadataTitle =>
    simp only [runExtractor] at h
    obtain ⟨t, _, h⟩ := bind_eq_ok h
    simp only [pure, Except.pure, Except.ok.injEq] at h
    subst h
    simp [lookupParam, List.find?] at hl
  | metadataAuthor =>
    simp only [runExtractor] at h
    obtain ⟨t, _, h⟩ := bind_eq_ok h
    simp only [pure, Except.pure, Except.ok.injEq] at h
    subst h
    simp [lookupParam, List.find?] at hl
  | metadataSubject =>
    simp only [runExtractor] at h
    obtain ⟨t, _, h⟩ := bind_eq_ok h
    simp only [pure, Except.pure, Except.ok.injEq] at h
    subst h
    simp [lookupParam, List.find?] at hl
  | newOrder =>
    simp only [runExtractor] at h
    obtain ⟨lo, _, h⟩ := bind_eq_ok h
    simp only [pure, Except.pure, Except.ok.injEq] at h
    subst h
    simp [lookupParam, List.find?] at hl
  | movePage =>
    simp only [runExtractor] at h
    obtain ⟨fp, _, h⟩ := bind_eq_ok h
    obtain ⟨tp, _, h⟩ := bind_eq_ok h
    obtain ⟨pg, _, h⟩ := bind_eq_ok h
    simp only [pure, Except.pure, Except.ok.injEq] at h
    subst h
    simp [lookupParam, List.find?] at hl
  | swapPages =>
    simp only [runExtractor] at h
    obtain ⟨p1, _, h⟩ := bind_eq_ok h
    obtain ⟨p2, _, h⟩ := bind_eq_ok h
    obtain ⟨i1, _, h⟩ := bind_eq_ok h
    obtain ⟨i2, _, h⟩ := bind_eq_ok h
    simp only [pure, Except.pure, Except.ok.injEq] at h
    subst h
    simp [lookupParam, List.find?] at hl
  | imagePages =>
    simp only [runExtractor] at h
    obtain ⟨ge1, _, h⟩ := bind_eq_ok h
    simp only [pure, Except.pure, Except.ok.injEq] at h
    subst h
    rw [lookupParam_cons_eq] at hl
    cases hps : (if ge1 && truthy (grpGet caps 1) then grpGet caps 1 else none) with
    | none => rw [hps] at hl; simp at hl
    | some sfrag =>
      rw [hps] at hl
      simp only [Option.some.injEq, PyVal.vList.injEq] at hl
      subst hl
      exact goodPages_parsePageRange _ _
  | tablePages =>
    simp only [runExtractor] at h
    obtain ⟨ge1, _, h⟩ := bind_eq_ok h
    simp only [pure, Except.pure, Except.ok.injEq] at h
    subst h
    rw [lookupParam_cons_eq] at hl
    cases hps : (if ge1 && truthy (grpGet caps 1) then grpGet caps 1 else none) with
    | none => rw [hps] at hl; simp at hl
    | some sfrag =>
      rw [hps] at hl
      simp only [Option.some.injEq, PyVal.vList.injEq] at hl
      subst hl
      exact goodPages_parsePageRange _ _

/-- `pages` parameters produced by the fuzzy path's generic extraction
also satisfy the invariant. -/
theorem extractGenericParams_pages {command : List Char} {intent : Intent}
    {ctx : DocumentContext} {l : List Int}
    (hl : lookupParam (extractGenericParams command intent ctx) "pages" =
      some (PyVal.vList l)) : goodPages ctx.numPages l := by
  simp only [extractGenericParams] at hl
  cases hsp : searchPagesFrag command with
  | some frag =>
    rw [hsp] at hl
    simp only [List.cons_append, List.nil_append] at hl
    rw [lookupParam_cons_eq] at hl
    simp only [Option.some.injEq, PyVal.vList.injEq] at hl
    subst hl
    exact goodPages_parsePageRange _ _
  | none =>
    rw [hsp] at hl
    simp only [List.nil_append] at hl
    cases hsq : searchQuoted command with
    | none =>
      rw [hsq] at hl
      simp [lookupParam, List.find?] at hl
    | some txt =>
      rw [hsq] at hl
      split at hl
      · split at hl
        · simp [lookupParam, List.find?] at hl
        · split at hl
          · simp [lookupParam, List.find?] at hl
          · simp [lookupParam, List.find?] at hl
      · simp [lookupParam, List.find?] at hl

/-! ## The claims -/

/-- C2, counterexample: `parse` can raise.  `"extract pages xyz"` parses an
empty page list and feeds it to `min()`; `"move page 9 to position 1"` on a
5-page document calls `list.remove(9)` on `[1..5]`.  Both escape `parse` as
exceptions, so the claim that `parse` never raises is false exactly at the
inputs the claim names. -/
theorem C2_counterexample :
    parse "extract pages xyz" ⟨"doc", 5, true, true⟩ =
      Except.error "ValueError: min() arg is an empty sequence" ∧
    parse "move page 9 to position 1" ⟨"doc", 5, true, true⟩ =
      Except.error "ValueError: list.remove(x): x not in list" := by
  constructor <;> decide

/-- C2, amended: `parse` always terminates and returns normally except that
a matched extractor may raise one of a fixed small set of exceptions
(`min`/`max` of an empty page list, removing or indexing a page absent from
`[1..num_pages]`, comparing a `None` `lastindex` with an integer, or
converting/lower-casing/stripping a `None` group); every error escaping
`parse` is one of these. -/
theorem C2_amended_errors {cmd : String} {ctx : DocumentContext} {e : String}
    (h : parse cmd ctx = .error e) : e ∈ extractorErrors := by
  obtain ⟨ent, _, caps, hre⟩ := parse_error_cases h
  exact runExtractor_error_mem hre

theorem C2_amended_errors_witness :
    parse "extract pages xyz" ⟨"doc", 5, true, true⟩ =
      Except.error "ValueError: min() arg is an empty sequence" ∧
    "ValueError: min() arg is an empty sequence" ∈ extractorErrors := by
  have h : parse "extract pages xyz" ⟨"doc", 5, true, true⟩ =
      Except.error "ValueError: min() arg is an empty sequence" := by decide
  exact ⟨h, C2_amended_errors h⟩

/-- C8: for every `ParsedCommand` returned normally by `parse`, the intent
is `unknown` iff the confidence is `0`, and an `unknown` result carries a
non-empty suggestions list (it is returned, never raised). -/
theorem C8_unknown_iff {cmd : String} {ctx : DocumentContext} {pc : ParsedCommand}
    (h : parse cmd ctx = .ok pc) :
    (pc.intent = .unknown ↔ pc.confidence = 0) ∧
    (pc.intent = .unknown → pc.suggestions ≠ []) := by
  rcases parse_ok_cases h with ⟨ent, hent, params, rfl⟩ | ⟨it, cf, hfz, hne, hgt, rfl⟩ |
    ⟨h1, h2, h3, _, _⟩
  · have hu := patternTable_intents ent hent
    refine ⟨⟨fun hI => absurd hI hu, fun hC => ?_⟩, fun hI => absurd hI hu⟩
    exfalso
    have : (19 : ℚ)/20 = 0 := hC
    norm_num at this
  · refine ⟨⟨fun hI => absurd hI hne, fun hC => ?_⟩, fun hI => absurd hI hne⟩
    exfalso
    have : cf = 0 := hC
    rw [this] at hgt
    norm_num at hgt
  · refine ⟨⟨fun _ => h2, fun _ => h1⟩, fun _ => ?_⟩
    rw [h3]
    simp [getAllSuggestions]

theorem C8_unknown_iff_witness :
    ∃ pc, parse "split into individual pages" ⟨"doc", 5, true, true⟩ = Except.ok pc ∧
      ((pc.intent = .unknown ↔ pc.confidence = 0) ∧
       (pc.intent = .unknown → pc.suggestions ≠ [])) := by
  have hok : (parse "split into individual pages" ⟨"doc", 5, true, true⟩).isOk = true := by
    decide
  cases hp : parse "split into individual pages" ⟨"doc", 5, true, true⟩ with
  | error e => rw [hp] at hok; simp [Except.isOk, Except.toBool] at hok
  | ok pc => exact ⟨pc, rfl, C8_unknown_iff hp⟩

/-- C10: results whose intent is not `remove_pages`, `encrypt` or `split`
never carry warnings: `_generate_warnings` only produces warnings for those
three intents, and the unknown-command result has an empty warnings list. -/
theorem C10_warnings_empty {cmd : String} {ctx : DocumentContext} {pc : ParsedCommand}
    (h : parse cmd ctx = .ok pc)
    (h1 : pc.intent ≠ .removePages) (h2 : pc.intent ≠ .encrypt) (h3 : pc.intent ≠ .split) :
    pc.warnings = [] := by
  rcases parse_ok_cases h with ⟨ent, _, params, rfl⟩ | ⟨it, cf, _, _, _, rfl⟩ |
    ⟨_, _, _, hw, _⟩
  · exact generateWarnings_eq_nil h1 h2 h3
  · exact generateWarnings_eq_nil h1 h2 h3
  · exact hw

/-- C6, counterexample: on the command `"remov splt"` the keyword
`"remove"` (intent `remove_pages`) is not a substring, the token `"remov"`
has similarity ratio `10/11 > 0.7`, so the claim records the candidate
`(10/11)·0.7 = 7/11`; yet the classifier returns a strictly smaller score
(`(8/9)·0.7 = 28/45`, for `split`), because the fuzzy update compares the
raw ratio — not the discounted candidate — with the current best.  So the
returned score is not maximal among recorded candidates. -/
theorem C6_counterexample :
    (Intent.removePages, ["remove", "delete", "drop", "rid", "take out"]) ∈ intentKeywords ∧
    "remov".data ∈ pySplitWs (lowerL "remov splt".data) ∧
    ¬ containsSub "remove".data (lowerL "remov splt".data) ∧
    ratioQ "remove".data "remov".data > 7/10 ∧
    (fuzzyMatchIntent "remov splt".data).2 <
      ratioQ "remove".data "remov".data * (7/10) := by
  refine ⟨by decide, by decide, by decide, ?_, ?_⟩
  · with_unfolding_all decide
  · with_unfolding_all decide

/-- C6, amended: each keyword occurring as a substring of the lower-cased
command contributes a candidate `0.8`, and each whitespace token whose ratio
to a keyword exceeds `0.7` contributes `ratio * 0.7`; the returned score,
when the result is not `(unknown, 0)`, always equals one of the candidates
recorded for the returned intent — but it need not be the maximum, because
a fuzzy candidate replaces the current best whenever its raw ratio (not the
discounted `ratio * 0.7`) exceeds the current best score. -/
theorem C6_amended_sound (command : List Char) :
    fuzzyMatchIntent command = (Intent.unknown, 0) ∨
    ∃ kws kw, ((fuzzyMatchIntent command).1, kws) ∈ intentKeywords ∧ kw ∈ kws ∧
      ((containsSub kw.data (lowerL command) ∧ (fuzzyMatchIntent command).2 = 8/10) ∨
       ∃ w ∈ pySplitWs (lowerL command), ratioQ kw.data w > 7/10 ∧
         (fuzzyMatchIntent command).2 = ratioQ kw.data w * (7/10)) := by
  suffices h : ∀ res : Intent × ℚ, res = fuzzyMatchIntent command →
      (res = (Intent.unknown, 0) ∨
        ∃ kws kw, (res.1, kws) ∈ intentKeywords ∧ kw ∈ kws ∧
          ((containsSub kw.data (lowerL command) ∧ res.2 = 8/10) ∨
           ∃ w ∈ pySplitWs (lowerL command), ratioQ kw.data w > 7/10 ∧
             res.2 = ratioQ kw.data w * (7/10))) by
    exact h _ rfl
  intro res hres
  subst hres
  unfold fuzzyMatchIntent
  apply foldl_inv
    (P := fun best : Intent × ℚ =>
      best = (Intent.unknown, 0) ∨
      ∃ kws kw, (best.1, kws) ∈ intentKeywords ∧ kw ∈ kws ∧
        ((containsSub kw.data (lowerL command) ∧ best.2 = 8/10) ∨
         ∃ w ∈ pySplitWs (lowerL command), ratioQ kw.data w > 7/10 ∧
           best.2 = ratioQ kw.data w * (7/10)))
  · exact Or.inl rfl
  · intro acc ent hent hacc
    apply foldl_inv
      (P := fun best : Intent × ℚ =>
        best = (Intent.unknown, 0) ∨
        ∃ kws kw, (best.1, kws) ∈ intentKeywords ∧ kw ∈ kws ∧
          ((containsSub kw.data (lowerL command) ∧ best.2 = 8/10) ∨
           ∃ w ∈ pySplitWs (lowerL command), ratioQ kw.data w > 7/10 ∧
             best.2 = ratioQ kw.data w * (7/10)))
    · exact hacc
    · intro acc2 kw hkw hacc2
      by_cases hsub : containsSub kw.data (lowerL command)
      · rw [if_pos hsub]
        by_cases hbeat : (8 : ℚ)/10 > acc2.2
        · rw [if_pos hbeat]
          exact Or.inr ⟨ent.2, kw, hent, hkw, Or.inl ⟨hsub, rfl⟩⟩
        · rw [if_neg hbeat]
          exact hacc2
      · rw [if_neg hsub]
        apply foldl_inv
          (P := fun best : Intent × ℚ =>
            best = (Intent.unknown, 0) ∨
            ∃ kws kw, (best.1, kws) ∈ intentKeywords ∧ kw ∈ kws ∧
              ((containsSub kw.data (lowerL command) ∧ best.2 = 8/10) ∨
               ∃ w ∈ pySplitWs (lowerL command), ratioQ kw.data w > 7/10 ∧
                 best.2 = ratioQ kw.data w * (7/10)))
        · exact hacc2
        · intro acc3 w hw hacc3
          by_cases hr : ratioQ kw.data w > 7/10 ∧ ratioQ kw.data w > acc3.2
          · rw [if_pos hr]
            exact Or.inr ⟨ent.2, kw, hent, hkw, Or.inr ⟨w, hw, hr.1, rfl⟩⟩
          · rw [if_neg hr]
            exact hacc3

theorem C10_warnings_empty_witness :
    ∃ pc, parse "flip page 1" ⟨"doc", 5, true, true⟩ = Except.ok pc ∧
      pc.intent ≠ Intent.removePages ∧ pc.intent ≠ Intent.encrypt ∧
      pc.intent ≠ Intent.split ∧ pc.warnings = [] := by
  have hok : (parse "flip page 1" ⟨"doc", 5, true, true⟩).isOk = true := by decide
  have hit : (parse "flip page 1" ⟨"doc", 5, true, true⟩).map (·.intent) =
      Except.ok Intent.rotatePages := by decide
  cases hp : parse "flip page 1" ⟨"doc", 5, true, true⟩ with
  | error e => rw [hp] at hok; simp [Except.isOk, Except.toBool] at hok
  | ok pc =>
    rw [hp] at hit
    simp only [Except.map, Except.ok.injEq] at hit
    have h1 : pc.intent ≠ Intent.removePages := by rw [hit]; decide
    have h2 : pc.intent ≠ Intent.encrypt := by rw [hit]; decide
    have h3 : pc.intent ≠ Intent.split := by rw [hit]; decide
    exact ⟨pc, rfl, h1, h2, h3, C10_warnings_empty hp h1 h2 h3⟩

/-- C1: for every command `"remove pages {a}-{b}"` (with `{a}`, `{b}` decimal
digit strings) and every context with `1 ≤ a` and `b ≤ num_pages`, `parse`
returns intent `remove_pages`, `parameters["pages"] = [a, a+1, ..., b]`
(the list `intRange a (b+1)`, whose members are exactly the integers in
`[a, b]`), and confidence `0.95 = 19/20`. -/
theorem C1_remove_pages_range {sa sb : List Char} {ctx : DocumentContext} {a b : Nat}
    (hsa : ∀ c ∈ sa, c ∈ digitChars) (hsb : ∀ c ∈ sb, c ∈ digitChars)
    (hna : sa ≠ []) (hnb : sb ≠ [])
    (hva : decValL sa = a) (hvb : decValL sb = b)
    (h1 : 1 ≤ a) (hab : a ≤ b) (hbn : (b : Int) ≤ ctx.numPages) :
    ∃ pc, parse (String.mk ("remove pages ".data ++ sa ++ '-' :: sb)) ctx = .ok pc ∧
      pc.intent = Intent.removePages ∧
      lookupParam pc.parameters "pages" = some (PyVal.vList (intRange a (b + 1))) ∧
      (∀ p : Int, p ∈ intRange a (b + 1) ↔ (a : Int) ≤ p ∧ p ≤ (b : Int)) ∧
      pc.confidence = 19/20 := by
  refine ⟨_, parse_remove_pages_pair hsa hsb hna hnb hva hvb h1 hbn, rfl, rfl, ?_, rfl⟩
  intro p
  rw [mem_intRange]
  omega

theorem C1_remove_pages_range_witness :
    ∃ pc, parse (String.mk ("remove pages ".data ++ ['2'] ++ '-' :: ['4']))
        ⟨"doc", 5, true, true⟩ = .ok pc ∧
      pc.intent = Intent.removePages ∧
      lookupParam pc.parameters "pages" =
        some (PyVal.vList (intRange ((2 : Nat) : Int) (((4 : Nat) : Int) + 1))) ∧
      (∀ p : Int, p ∈ intRange ((2 : Nat) : Int) (((4 : Nat) : Int) + 1) ↔
        ((2 : Nat) : Int) ≤ p ∧ p ≤ ((4 : Nat) : Int)) ∧
      pc.confidence = 19/20 :=
  @C1_remove_pages_range ['2'] ['4'] ⟨"doc", 5, true, true⟩ 2 4
    (by intro c hc; fin_cases hc; decide) (by intro c hc; fin_cases hc; decide)
    (by decide) (by decide) (by decide) (by decide) (by decide) (by decide) (by decide)

/-- C9: for every context with `num_pages = b ≥ 1`, the command
`"remove pages 1-{b}"` (removing every page) parses to a result whose
warnings list is non-empty and contains the "at least one page must
remain" message. -/
theorem C9_remove_all_warning {sb : List Char} {ctx : DocumentContext} {b : Nat}
    (hsb : ∀ c ∈ sb, c ∈ digitChars) (hnb : sb ≠ [])
    (hvb : decValL sb = b) (hb1 : 1 ≤ b) (hn : ctx.numPages = (b : Int)) :
    ∃ pc, parse (String.mk ("remove pages ".data ++ ['1'] ++ '-' :: sb)) ctx = .ok pc ∧
      "Cannot remove all pages. At least one page must remain." ∈ pc.warnings ∧
      pc.warnings ≠ [] := by
  have hp := @parse_remove_pages_pair ['1'] sb ctx 1 b
    (by intro c hc; fin_cases hc; decide) hsb (by decide) hnb (by decide) hvb
    (by decide) hn.ge
  have harg : ((paramPagesD
      [("pages", PyVal.vList (intRange ((1 : Nat) : Int) (((b : Nat) : Int) + 1)))]).length
        : Int) ≥ ctx.numPages := by
    rw [show paramPagesD
        [("pages", PyVal.vList (intRange ((1 : Nat) : Int) (((b : Nat) : Int) + 1)))] =
        intRange ((1 : Nat) : Int) (((b : Nat) : Int) + 1) from rfl]
    rw [intRange_length, hn]
    omega
  have hw := generateWarnings_remove_all
    [("pages", PyVal.vList (intRange ((1 : Nat) : Int) (((b : Nat) : Int) + 1)))] ctx harg
  refine ⟨_, hp, ?_, ?_⟩
  · show "Cannot remove all pages. At least one page must remain." ∈
      generateWarnings Intent.removePages
        [("pages", PyVal.vList (intRange ((1 : Nat) : Int) (((b : Nat) : Int) + 1)))] ctx
    rw [hw]
    simp
  · show generateWarnings Intent.removePages
        [("pages", PyVal.vList (intRange ((1 : Nat) : Int) (((b : Nat) : Int) + 1)))] ctx ≠ []
    rw [hw]
    simp

theorem C9_remove_all_warning_witness :
    ∃ pc, parse (String.mk ("remove pages ".data ++ ['1'] ++ '-' :: ['5']))
        ⟨"doc", 5, true, true⟩ = .ok pc ∧
      "Cannot remove all pages. At least one page must remain." ∈ pc.warnings ∧
      pc.warnings ≠ [] :=
  @C9_remove_all_warning ['5'] ⟨"doc", 5, true, true⟩ 5
    (by intro c hc; fin_cases hc; decide) (by decide) (by decide) (by decide) (by decide)

/-- C7: every `pages` parameter in a normally returned `ParsedCommand` is
strictly ascending (hence sorted and duplicate-free) with all entries in
`[1, num_pages]`.  The only extractor that could break this — the
first/last extractor, whose page list is not range-filtered — is
unreachable, because the generic remove pattern that precedes it matches
every string its own pattern matches. -/
theorem C7_pages_invariant {cmd : String} {ctx : DocumentContext} {pc : ParsedCommand}
    {l : List Int} (h : parse cmd ctx = .ok pc)
    (hl : lookupParam pc.parameters "pages" = some (PyVal.vList l)) :
    List.Chain' (· < ·) l ∧ ∀ p ∈ l, 1 ≤ p ∧ p ≤ ctx.numPages := by
  suffices hg : goodPages ctx.numPages l from hg
  unfold parse at h
  split at h
  · next r heq =>
    subst h
    cases hre1 : reMatch removeP1 (stripWs cmd.data) with
    | some caps1 =>
      have he : tryPatterns (stripWs cmd.data) ctx =
          some (runExtractor Extr.pages caps1 ctx >>= fun params =>
            pure (buildResult Intent.removePages params (stripWs cmd.data) ctx (19/20))) := by
        simp only [tryPatterns, patternTable]
        apply findSome?_cons_some
        dsimp only
        rw [hre1]
      rw [heq] at he
      simp only [Option.some.injEq] at he
      obtain ⟨params, hex, hpure⟩ := bind_eq_ok he.symm
      simp only [pure, Except.pure, Except.ok.injEq] at hpure
      subst hpure
      exact runExtractor_pages_inv (by decide) hex hl
    | none =>
      have hre2 : reMatch removeP2 (stripWs cmd.data) = none := by
        cases hm : reMatch removeP2 (stripWs cmd.data) with
        | none => rfl
        | some c2 =>
          obtain ⟨t0, hc⟩ := reMatch_eq_some_consumes hm
          obtain ⟨t1, hc1⟩ := consumes_removeP1_of_removeP2 hc
          have hs := reMatch_isSome_of_consumes hc1
          rw [hre1] at hs
          exact absurd hs (by simp)
      unfold tryPatterns at heq
      simp only [patternTable] at heq
      rw [findSome?_cons_none (by dsimp only; rw [hre1])] at heq
      rw [findSome?_cons_none (by dsimp only; rw [hre2])] at heq
      obtain ⟨ent, hent, hfent⟩ := findSome?_eq_some heq
      have hmem : ent ∈ patternTable := by
        simp only [patternTable]
        exact List.mem_cons_of_mem _ (List.mem_cons_of_mem _ hent)
      have hrel : ent.2.2 ≠ Extr.relativePages := by
        have huniq : ∀ e ∈ patternTable, e.2.2 = Extr.relativePages → e.2.1 = removeP2 := by
          decide
        intro hx
        revert hfent
        cases hm : reMatch ent.2.1 (stripWs cmd.data) with
        | none => intro hfent; exact Option.noConfusion hfent
        | some caps =>
          intro _
          rw [huniq ent hmem hx] at hm
          rw [hre2] at hm
          exact Option.noConfusion hm
      revert hfent
      cases hm : reMatch ent.2.1 (stripWs cmd.data) with
      | none => intro hfent; exact Option.noConfusion hfent
      | some caps =>
        intro hfent
        simp only [Option.some.injEq] at hfent
        obtain ⟨params, hex, hpure⟩ := bind_eq_ok hfent
        simp only [pure, Except.pure, Except.ok.injEq] at hpure
        subst hpure
        exact runExtractor_pages_inv hrel hex hl
  · next heq =>
    split at h
    · next hguard =>
      simp only [Except.ok.injEq] at h
      subst h
      exact extractGenericParams_pages hl
    · simp only [Except.ok.injEq] at h
      subst h
      simp [lookupParam, List.find?] at hl

theorem C7_pages_invariant_witness :
    ∃ pc pl, parse "remove pages 2-4" ⟨"doc", 5, true, true⟩ = Except.ok pc ∧
      lookupParam pc.parameters "pages" = some (PyVal.vList pl) ∧
      List.Chain' (· < ·) pl ∧
      ∀ p ∈ pl, 1 ≤ p ∧ p ≤ (⟨"doc", 5, true, true⟩ : DocumentContext).numPages := by
  have hpg : (parse "remove pages 2-4" ⟨"doc", 5, true, true⟩).map
      (fun pc => lookupParam pc.parameters "pages") =
      Except.ok (some (PyVal.vList [2, 3, 4])) := by decide
  cases hp : parse "remove pages 2-4" ⟨"doc", 5, true, true⟩ with
  | error e => rw [hp] at hpg; simp [Except.map] at hpg
  | ok pc =>
    rw [hp] at hpg
    simp only [Except.map, Except.ok.injEq] at hpg
    exact ⟨pc, [2, 3, 4], rfl, hpg, C7_pages_invariant hp hpg⟩

/-- C3: the claim says `"rotate pages 1-3 by {d} degrees"` yields
`rotation = d` and `pages = [1,2,3]`.  The code disagrees: in the first
rotate pattern every component after the verb is optional and the page
group is lazy (`(\d+(?:\s*[-,]\s*\d+)*?)?`), so the match stops after the
first digit — group 1 captures `"1"` and the degrees group captures
nothing, falling back to the default rotation `90`.  For every
`d ∈ {90, 180, 270}` the result is `pages = [1]`, `rotation = 90`. -/
theorem C3_rotate_degrees_bug :
    (parse "rotate pages 1-3 by 90 degrees" ⟨"doc", 5, true, true⟩).map
        (fun pc => (lookupParam pc.parameters "pages", lookupParam pc.parameters "rotation")) =
      Except.ok (some (PyVal.vList [1]), some (PyVal.vInt 90)) ∧
    (parse "rotate pages 1-3 by 180 degrees" ⟨"doc", 5, true, true⟩).map
        (fun pc => (lookupParam pc.parameters "pages", lookupParam pc.parameters "rotation")) =
      Except.ok (some (PyVal.vList [1]), some (PyVal.vInt 90)) ∧
    (parse "rotate pages 1-3 by 270 degrees" ⟨"doc", 5, true, true⟩).map
        (fun pc => (lookupParam pc.parameters "pages", lookupParam pc.parameters "rotation")) =
      Except.ok (some (PyVal.vList [1]), some (PyVal.vInt 90)) := by
  refine ⟨by decide, by decide, by decide⟩

/-- C4: the claim says `"rotate page 1 counterclockwise"` yields
`rotation = 270`.  The code disagrees: the all-optional first rotate
pattern matches `"rotate page 1 counterclockwise"` before the
direction pattern is ever tried, its degrees group captures nothing, and
the default rotation `90` is returned.  (`"rotate page 1 clockwise"`
gives `90` and `"flip page 1"` gives `180`, as claimed — but for
`clockwise` this is the shadowing default, not the direction mapping.) -/
theorem C4_rotate_direction_bug :
    (parse "rotate page 1 counterclockwise" ⟨"doc", 5, true, true⟩).map
        (fun pc => lookupParam pc.parameters "rotation") =
      Except.ok (some (PyVal.vInt 90)) ∧
    (parse "rotate page 1 clockwise" ⟨"doc", 5, true, true⟩).map
        (fun pc => lookupParam pc.parameters "rotation") =
      Except.ok (some (PyVal.vInt 90)) ∧
    (parse "flip page 1" ⟨"doc", 5, true, true⟩).map
        (fun pc => lookupParam pc.parameters "rotation") =
      Except.ok (some (PyVal.vInt 180)) := by
  refine ⟨by decide, by decide, by decide⟩

/-- C5: the claim says `"remove the last N pages"` on a `num_pages = 5`
document yields `pages = [num_pages-N+1, ..., num_pages]` and
`"remove the first N pages"` yields `pages = [1, ..., N]`.  The code
disagrees: the generic remove pattern
`(?:remove|delete|drop|get rid of|take out)\s+(?:pages?\s+)?(.+)`
precedes the first/last pattern in the dict and matches
`"remove the last 2 pages"` (group 1 = `"the last 2 pages"`), so
`_parse_page_range` scavenges the lone integer token `2` and both
commands return `pages = [2]` on a 5-page document. -/
theorem C5_relative_pages_bug :
    (parse "remove the last 2 pages" ⟨"doc", 5, true, true⟩).map
        (fun pc => (pc.intent, lookupParam pc.parameters "pages")) =
      Except.ok (Intent.removePages, some (PyVal.vList [2])) ∧
    (parse "remove the first 2 pages" ⟨"doc", 5, true, true⟩).map
        (fun pc => (pc.intent, lookupParam pc.parameters "pages")) =
      Except.ok (Intent.removePages, some (PyVal.vList [2])) := by
  refine ⟨by decide, by decide⟩

end PdfBuddy
